import Mathlib

/- Formal model of the Winter Arc RPG backend: a two-player habit-battle
game whose core is a daily batch settlement engine.  The development is a
shallow embedding of the JavaScript sources: calendar dates are Gregorian
triples with a rata-die day number, JavaScript number arithmetic is
idealised as exact rational arithmetic, JSON objects are structures whose
optional fields stand for possibly-absent keys, and the PostgreSQL tables
are lists of rows inside an explicit store that the modelled operations
transform. -/

namespace WinterArc

/-! ## Calendar arithmetic

The JavaScript code manipulates dates through UTC `Date` objects created
from `YYYY-MM-DD` strings: `getDay` (0 = Sunday .. 6 = Saturday),
`getDate`, `new Date(y, m + 1, 0).getDate()` (last day of month), and
`setDate` arithmetic.  We model a date as a year/month/day triple and
derive the weekday from a rata-die day number. -/

/-- Gregorian leap-year test, as implemented by JavaScript Date month
arithmetic. -/
def isLeap (y : Nat) : Bool :=
  (y % 4 == 0 && y % 100 != 0) || y % 400 == 0

/-- Number of days in month `m` (1-12) of year `y`; this is what
`new Date(y, m, 0).getDate()` returns for 1-based `m`. -/
def daysInMonth (y m : Nat) : Nat :=
  if m = 2 then (if isLeap y then 29 else 28)
  else if m = 4 ∨ m = 6 ∨ m = 9 ∨ m = 11 then 30
  else 31

/-- Total days in the months strictly before month `m` of year `y`. -/
def daysBeforeMonth (y m : Nat) : Nat :=
  (List.range (m - 1)).foldl (fun acc i => acc + daysInMonth y (i + 1)) 0

/-- A calendar date, standing for the `YYYY-MM-DD` strings exchanged with
the database (month and day are 1-based). -/
structure Date where
  year : Nat
  month : Nat
  day : Nat
deriving DecidableEq, Repr

/-- Rata-die day number of a date (0001-01-01 is day 1).  Chronological
order of valid `YYYY-MM-DD` strings (which the SQL layer compares) agrees
with the order of the day numbers. -/
def Date.rd (d : Date) : Nat :=
  365 * (d.year - 1) + (d.year - 1) / 4 + (d.year - 1) / 400 - (d.year - 1) / 100
    + daysBeforeMonth d.year d.month + d.day

/-- JavaScript `Date.prototype.getDay` on a UTC date: 0 = Sunday,
1 = Monday, ..., 6 = Saturday. -/
def Date.jsDay (d : Date) : Nat := d.rd % 7

/-! ## Availability Gate (`utils/quest-availability.js`, `isQuestAvailable`)

The gate is a pure function of the recurrence class and the date.  The
JavaScript function also computes a `next_available` date on the weekly
and monthly branches; that field is not modelled because no verified
property reads it. -/

/-- JavaScript `String.prototype.toLowerCase` (ASCII semantics, which
covers every string the code compares). -/
def jsToLower (s : String) : String := ⟨s.data.map Char.toLower⟩

/-- Result of the availability gate (the `available` flag and `reason`
string of the object returned by `isQuestAvailable`). -/
structure Availability where
  available : Bool
  reason : String
deriving DecidableEq, Repr

/-- `isQuestAvailable(frequency, currentDate)`: `frequency` is nullable
(`frequency?.toLowerCase()` sends a missing value to the default branch of
the switch). -/
def isQuestAvailable (frequency : Option String) (date : Date) : Availability :=
  match frequency with
  | none =>
    { available := true, reason := "Unknown frequency - defaulting to daily availability" }
  | some f =>
    match jsToLower f with
    | "daily" =>
      { available := true, reason := "Daily quest - always available" }
    | "weekly" =>
      let dayOfWeek := date.jsDay
      let isWeekend := dayOfWeek == 0 || dayOfWeek == 6
      { available := isWeekend,
        reason := if isWeekend then "Weekly quest - available on weekends"
                  else "Weekly quest - only available Saturday-Sunday" }
    | "monthly" =>
      let lastDayOfMonth := daysInMonth date.year date.month
      let currentDay := date.day
      let daysFromEnd := lastDayOfMonth - currentDay
      let isEndOfMonth := daysFromEnd ≤ 2
      { available := isEndOfMonth,
        reason := if isEndOfMonth then "Monthly quest - available during last 3 days of month"
                  else "Monthly quest - available later (last 3 days of month)" }
    | "sidequest" =>
      { available := false, reason := "Sidequest availability determined by battle events" }
    | _ =>
      { available := true, reason := "Unknown frequency - defaulting to daily availability" }

/-- A `battle_events` row of type `scheduled_sidequest` as the locking
code reads it: the generating battle, the JSON `quest_id` key (absent on
the events the generator actually writes) and the JSON `expires_date`. -/
structure BattleEvent where
  battle_id : Nat
  event_type : String
  quest_id : Option Nat := none
  expires_date : Date
deriving DecidableEq, Repr

/-- Modelled from the spec: the specification's sidequest clause of the
Availability Gate, under which a sidequest is available exactly when a
separately generated, non-expired `scheduled_sidequest` event record
exists.  This definition follows the spec's words; the source gate
(`isQuestAvailable` above) does not consult event records at all, and the
two are compared in the C7 counterexample. -/
def sidequestAvailableSpec (events : List BattleEvent) (date : Date) : Bool :=
  events.any (fun e => e.event_type == "scheduled_sidequest" && date.rd ≤ e.expires_date.rd)

/-! ## Scoring Engine (`utils/rpg-engine.js`)

`evaluateQuestCompletion` consults an in-process cache, then asks the
external model and parses its reply with `JSON.parse`; a thrown API error
or a reply that fails parsing lands in the catch block, which returns
`getFallbackScoring`.  A reply that parses is returned as-is, without any
schema validation.  Parsed JSON objects are modelled with optional fields:
`none` is an absent key (JS `undefined`). -/

/-- A `quests` row (columns read by the modelled code paths). -/
structure Quest where
  id : Nat
  name : String
  quest_type : String
  difficulty : Option String := none
  frequency : Option String := none
  category : Option String := none
  base_damage : Int := 10
  base_xp : Int := 5
deriving DecidableEq, Repr

/-- The `checkinData` argument of the scoring functions: completion flag
and optional numeric value. -/
structure CheckinData where
  completed : Bool
  value : Option Int := none
deriving DecidableEq, Repr

/-- A scoring outcome as the JavaScript reads it after `JSON.parse`: each
field is the value found under the corresponding key, `none` when the key
is absent. -/
structure RawOutcome where
  quality : Option String := none
  damage_dealt : Option ℚ := none
  xp_gained : Option ℚ := none
  is_critical_hit : Option Bool := none
  status_effects_applied : Option (List String) := none
  narrative : Option String := none
  multiplier : Option ℚ := none
  hp_loss : Option ℚ := none
deriving DecidableEq, Repr

/-- JavaScript `String.prototype.includes`. -/
def jsIncludes (s sub : String) : Bool :=
  decide (sub.data <:+: s.data)

/-- `getFailureStatusEffects(quest)`: debuff names derived from quest
name/category keywords for a failed submission. -/
def getFailureStatusEffects (quest : Quest) : List String :=
  let questName := jsToLower quest.name
  let category := jsToLower (quest.category.getD "")
  (if jsIncludes questName "gym" || jsIncludes questName "workout"
      || jsIncludes category "fitness" then ["Frozen"] else [])
  ++ (if jsIncludes questName "sleep" || jsIncludes questName "bedtime"
      || jsIncludes category "sleep" then ["Slowed"] else [])
  ++ (if jsIncludes questName "diet" || jsIncludes questName "food"
      || jsIncludes category "nutrition" then ["Burning"] else [])

/-- `getSuccessStatusEffects(quest, quality)`: buff names for successful
submissions. -/
def getSuccessStatusEffects (quest : Quest) (quality : String) : List String :=
  (if quality == "excellent" && quest.quest_type == "defense" then ["Shielded"] else [])
  ++ (if jsIncludes (jsToLower quest.name) "meditation"
      || jsIncludes (jsToLower quest.name) "mindfulness" then ["Blessed"] else [])
  ++ (if jsIncludes (jsToLower quest.name) "workout"
      || jsIncludes (jsToLower quest.name) "gym" then ["Energized"] else [])

/-- The damage table `{light: 8, medium: 15, heavy: 25}` of
`getFallbackScoring`; `none` models the JS `undefined` produced by a
difficulty outside the table. -/
def fallbackBaseDamage : String → Option ℚ
  | "light" => some 8
  | "medium" => some 15
  | "heavy" => some 25
  | _ => none

/-- The XP table `{light: 3, medium: 8, heavy: 15}` of
`getFallbackScoring`. -/
def fallbackBaseXP : String → Option ℚ
  | "light" => some 3
  | "medium" => some 8
  | "heavy" => some 15
  | _ => none

/-- `quest.difficulty || 'medium'` (both a missing and an empty-string
difficulty are falsy in JavaScript). -/
def questDifficulty (quest : Quest) : String :=
  match quest.difficulty with
  | none => "medium"
  | some s => if s = "" then "medium" else s

/-- `getFallbackScoring(quest, checkinData)`: the deterministic local
outcome used when the external scorer is unavailable. -/
def getFallbackScoring (quest : Quest) (checkinData : CheckinData) : RawOutcome :=
  let difficulty := questDifficulty quest
  let baseDamage := fallbackBaseDamage difficulty
  let baseXP := fallbackBaseXP difficulty
  if !checkinData.completed then
    { quality := some "failed",
      damage_dealt := some 0,
      xp_gained := some 0,
      is_critical_hit := some false,
      status_effects_applied := some (getFailureStatusEffects quest),
      narrative := some (quest.name ++ " failed!"),
      multiplier := some 0,
      hp_loss := baseDamage.map (fun b => ((⌊b * (6 / 10)⌋ : ℤ) : ℚ)) }
  else
    { quality := some "average",
      damage_dealt := baseDamage,
      xp_gained := baseXP,
      is_critical_hit := some false,
      status_effects_applied := some [],
      narrative := some (quest.name ++ " completed!"),
      multiplier := some 1 }

/-- The scoring-cache key template
`quest_type-difficulty-completed-value`, modelled as the tuple of the
interpolated values. -/
abbrev CacheKey := String × Option String × Bool × Option Int

/-- Cache key of a quest/submission pair. -/
def cacheKeyOf (quest : Quest) (checkinData : CheckinData) : CacheKey :=
  (quest.quest_type, quest.difficulty, checkinData.completed, checkinData.value)

/-- What one round-trip to the external scorer produces: `failure` covers
both a thrown API error and response text rejected by `JSON.parse` (both
reach the catch block); `parsed` carries the parsed JSON object with
exactly the keys it happened to contain. -/
inductive ScorerResponse where
  | failure
  | parsed (r : RawOutcome)
deriving DecidableEq, Repr

/-- Lookup in the in-process scoring cache (a JS `Map`). -/
def lookupCache (cache : List (CacheKey × RawOutcome)) (k : CacheKey) : Option RawOutcome :=
  (cache.find? (fun e => e.1 == k)).map (fun e => e.2)

/-- `evaluateQuestCompletion(quest, checkinData)`: cache hit short-circuits;
otherwise a parsed scorer response is cached and returned as-is, and a
scorer failure returns the deterministic fallback without caching it. -/
def evaluateQuestCompletion (cache : List (CacheKey × RawOutcome))
    (response : ScorerResponse) (quest : Quest) (checkinData : CheckinData) :
    RawOutcome × List (CacheKey × RawOutcome) :=
  let cacheKey := cacheKeyOf quest checkinData
  match lookupCache cache cacheKey with
  | some cached => (cached, cache)
  | none =>
    match response with
    | .parsed result => (result, (cacheKey, result) :: cache)
    | .failure => (getFallbackScoring quest checkinData, cache)

/-- `calculateComboMultiplier(completedQuests, totalQuests)` from
`rpg-engine.js`.  This rate-based helper is defined in the source but has
no caller; the combo multiplier actually applied at settlement is the
count-based block inside `processPlayerSubmissions` (modelled below). -/
def calculateComboMultiplier (completedQuests totalQuests : ℚ) : ℚ :=
  let completionRate := completedQuests / totalQuests
  if completionRate == 1 then 2
  else if completionRate ≥ 8 / 10 then 3 / 2
  else if completionRate ≥ 6 / 10 then 6 / 5
  else 1

/-! ## Status effects and combatant state

`applyStatusEffects` writes effect objects whose JSON keys are `name`,
`emoji`, `description`, `effect_type`, `effects` and `expires_at`.  The
combo-block test inside `processPlayerSubmissions` reads the key `effect`
(singular), which no writer of `status_effects` ever sets; the structure
below therefore carries both keys, with `effect` defaulting to the absent
value. -/

/-- The JSON payload stored under the `effects` key of a status-effect
definition (only `combo_blocked` is ever read by the modelled code; the
numeric modifier keys are never consulted). -/
structure EffectsPayload where
  combo_blocked : Bool := false
deriving DecidableEq, Repr

/-- A row of the `status_effects` definitions table. -/
structure StatusEffectDef where
  name : String
  effect_type : String
  duration_days : Nat
  effects : EffectsPayload
deriving DecidableEq, Repr

/-- One entry of a combatant's `status_effects` JSONB list, as written by
`applyStatusEffects`: the payload lives under the key `effects`; the key
`effect` (read by the combo-block test) is never written and so defaults
to absent. -/
structure StoredEffect where
  name : String
  effect_type : String
  effects : EffectsPayload
  effect : Option EffectsPayload := none
  expires_at : Nat
deriving DecidableEq, Repr

/-- A `battle_user_stats` row: the combatant state of one user inside one
battle. -/
structure UserStats where
  battle_id : Nat
  user_id : Nat
  hp : Int
  xp : Int
  streak : Int
  level : Int
  status_effects : List StoredEffect := []
  total_damage_dealt : Int := 0
  last_action_date : Option Date := none
deriving DecidableEq, Repr

/-- A `checkins` row: one submission of a quest, with the outcome fields
the settlement engine writes and the `processed_at` settlement marker
(`none` = pending). -/
structure Checkin where
  id : Nat
  battle_id : Nat
  user_id : Nat
  date : Date
  quest_id : Nat
  value : Option Int := none
  completed : Bool
  submission_sequence : Nat
  processed_at : Option Nat := none
  llm_score : ℚ := 0
  damage_dealt : Int := 0
  xp_gained : Int := 0
  is_critical_hit : Bool := false
  status_effects_applied : List String := []
  combo_multiplier : ℚ := 1
deriving DecidableEq, Repr

/-- A `battles` row. -/
structure Battle where
  id : Nat
  player1_id : Nat
  player2_id : Nat
  status : String
  last_processed_date : Option Date := none
deriving DecidableEq, Repr

/-- A `logs` row: the narrative record of one battle and date. -/
structure LogEntry where
  battle_id : Nat
  date : Date
  log_text : String
deriving DecidableEq, Repr

/-- The persistent store as seen by the settlement engine and the
submission route.  The `weekly_tournaments` and `monthly_boss_fights`
tables are modelled separately below: the code paths that write them
never write `checkins`, `battle_user_stats` or `logs`. -/
structure Store where
  battles : List Battle := []
  quests : List Quest := []
  checkins : List Checkin := []
  battle_user_stats : List UserStats := []
  logs : List LogEntry := []
  battle_events : List BattleEvent := []
  status_effects : List StatusEffectDef := []
deriving DecidableEq, Repr

/-- `SELECT * FROM battle_user_stats WHERE battle_id AND user_id`. -/
def lookupStats (st : Store) (battleId userId : Nat) : Option UserStats :=
  st.battle_user_stats.find? (fun s => s.battle_id == battleId && s.user_id == userId)

/-- `UPDATE battle_user_stats SET ... WHERE battle_id AND user_id`. -/
def updateStatsRow (st : Store) (battleId userId : Nat) (f : UserStats → UserStats) : Store :=
  { st with battle_user_stats := st.battle_user_stats.map (fun s =>
      if s.battle_id == battleId && s.user_id == userId then f s else s) }

/-- `SELECT * FROM battles WHERE id = $1`. -/
def findBattle (st : Store) (battleId : Nat) : Option Battle :=
  st.battles.find? (fun b => b.id == battleId)

/-- `SELECT * FROM quests WHERE id = $1`. -/
def findQuest (quests : List Quest) (questId : Nat) : Option Quest :=
  quests.find? (fun q => q.id == questId)

/-- `getOpponentId(battleId, userId)` given the battle row. -/
def getOpponentId (battle : Battle) (userId : Nat) : Nat :=
  if battle.player1_id == userId then battle.player2_id else battle.player1_id

/-- `applyStatusEffects(userStats, statusEffectsToApply)`: look each
effect name up in the definitions table, replace any stored effect with
the same name by a fresh instance expiring `duration_days` after today,
then drop every effect whose expiry is before today.  `today` is the
rata-die number of the current wall-clock date (`new Date()`). -/
def applyStatusEffects (defs : List StatusEffectDef) (today : Nat)
    (userStats : UserStats) (statusEffectsToApply : List String) : UserStats :=
  let afterAdd := statusEffectsToApply.foldl (fun acc effectName =>
    match defs.find? (fun d => d.name == effectName) with
    | none => acc
    | some eff =>
      (acc.filter (fun e => e.name != effectName)) ++
        [{ name := eff.name, effect_type := eff.effect_type, effects := eff.effects,
           effect := none, expires_at := today + eff.duration_days }]) userStats.status_effects
  { userStats with status_effects := afterAdd.filter (fun e => today ≤ e.expires_at) }

/-- The combo-block test of `processPlayerSubmissions`:
`effect.name === 'Frozen' && effect.effect?.combo_blocked`.  Note that it
reads the key `effect`, not the key `effects` under which the payload is
stored. -/
def isComboBlocked (activeStatusEffects : List StoredEffect) : Bool :=
  activeStatusEffects.any (fun e =>
    e.name == "Frozen" &&
      (match e.effect with
       | some p => p.combo_blocked
       | none => false))

/-! ## Daily settlement engine (`daily-battle-processor.js`)

The per-submission evaluation goes through
`rpgEngine.calculateQuestOutcome(quest, completed, value, userStats,
opponentStats)` and ultimately the external scorer; the engine is
parametrised by an evaluator function covering every behaviour of that
call that yields a well-formed outcome object (the deterministic fallback
and any schema-conforming scorer reply).  Narration is likewise
parametrised: `generateBattleNarration` always returns a string (it has
its own templated fallback), so the narrator parameter is total. -/

/-- An evaluation outcome with all fields present, as produced by the
fallback and by schema-conforming scorer replies. -/
structure Evaluation where
  quality : String
  damage_dealt : ℚ
  xp_gained : ℚ
  is_critical_hit : Bool
  status_effects_applied : List String := []
  multiplier : ℚ := 1
deriving DecidableEq, Repr

/-- The evaluator abstracting `calculateQuestOutcome`: quest, completion
flag, submitted value, and the submitting user's stats. -/
abbrev Evaluator := Quest → Bool → Option Int → UserStats → Evaluation

/-- The narrator abstracting `generateBattleNarration` (battle id and
date to narrative text). -/
abbrev Narrator := Nat → Date → String

/-- Predicate selecting the rows of the engine's checkin query: this
user's checkins for the date whose settlement marker is unset. -/
def isPendingFor (battleId userId : Nat) (d : Date) (c : Checkin) : Bool :=
  c.battle_id == battleId && c.user_id == userId && c.date == d && c.processed_at == none

/-- The pending rows inner-joined with their quest (a checkin whose quest
id matches no quest row is dropped by the SQL join), before ordering. -/
def pendingRows (st : Store) (battleId userId : Nat) (d : Date) : List (Checkin × Quest) :=
  (st.checkins.filter (isPendingFor battleId userId d)).filterMap
    (fun c => (findQuest st.quests c.quest_id).map (fun q => (c, q)))

/-- The pending rows in query order (`ORDER BY submission_sequence`). -/
def pendingJoined (st : Store) (battleId userId : Nat) (d : Date) : List (Checkin × Quest) :=
  (pendingRows st battleId userId d).insertionSort
    (fun a b => a.1.submission_sequence ≤ b.1.submission_sequence)

/-- The per-row UPDATE of a settled checkin: write the outcome fields and
set the settlement marker (`processed_at = NOW()`, modelled by the
current day number). -/
def settleCheckin (ev : Evaluation) (today : Nat) (c : Checkin) : Checkin :=
  { c with
    llm_score := ev.damage_dealt + ev.xp_gained,
    damage_dealt := ⌊ev.damage_dealt⌋,
    xp_gained := ⌊ev.xp_gained⌋,
    is_critical_hit := ev.is_critical_hit,
    status_effects_applied := ev.status_effects_applied,
    combo_multiplier := if ev.multiplier == 0 then 1 else ev.multiplier,
    processed_at := some today }

/-- Accumulator of the per-checkin loop of `processPlayerSubmissions`. -/
structure DayAccum where
  totalDamage : ℚ := 0
  totalXP : ℚ := 0
  statusEffectsToApply : List String := []
  criticalHits : Nat := 0
deriving DecidableEq, Repr

/-- One step of the loop: outcomes of quality `failed` contribute nothing
to the totals, the effect list, or the critical count. -/
def accumOutcome (acc : DayAccum) (ev : Evaluation) : DayAccum :=
  if ev.quality != "failed" then
    { totalDamage := acc.totalDamage + ev.damage_dealt,
      totalXP := acc.totalXP + ev.xp_gained,
      statusEffectsToApply := acc.statusEffectsToApply ++ ev.status_effects_applied,
      criticalHits := acc.criticalHits + (if ev.is_critical_hit then 1 else 0) }
  else acc

/-- The whole per-checkin accumulation over the fetched rows (the user
stats passed to every evaluation are the ones fetched before the loop). -/
def dayAccum (evalFn : Evaluator) (us : UserStats) (rows : List (Checkin × Quest)) : DayAccum :=
  rows.foldl (fun acc cq => accumOutcome acc (evalFn cq.2 cq.1.completed cq.1.value us)) {}

/-- The combo block of `processPlayerSubmissions`: a count-based
multiplier over the user's completed fetched rows, suppressed when the
combo-block test fires, whose bonus `floor(totalDamage * (multiplier - 1))`
is added to both the damage and the XP total. -/
def dayTotals (evalFn : Evaluator) (us : UserStats) (rows : List (Checkin × Quest)) : ℚ × ℚ :=
  let acc := dayAccum evalFn us rows
  let completedQuests := rows.filter (fun cq => cq.1.completed)
  let blocked := isComboBlocked us.status_effects
  if !blocked && 2 ≤ completedQuests.length then
    let comboMultiplier : ℚ := if 3 ≤ completedQuests.length then 3 / 2 else 6 / 5
    let comboBonus : ℚ := ((⌊acc.totalDamage * (comboMultiplier - 1)⌋ : ℤ) : ℚ)
    (acc.totalDamage + comboBonus, acc.totalXP + comboBonus)
  else (acc.totalDamage, acc.totalXP)

/-- `Math.floor(totalDamage)` after the combo block. -/
def dayFinalDamage (evalFn : Evaluator) (us : UserStats) (rows : List (Checkin × Quest)) : ℤ :=
  ⌊(dayTotals evalFn us rows).1⌋

/-- `Math.floor(totalXP)` after the combo block. -/
def dayFinalXP (evalFn : Evaluator) (us : UserStats) (rows : List (Checkin × Quest)) : ℤ :=
  ⌊(dayTotals evalFn us rows).2⌋

/-- `DailyBattleProcessor.processPlayerSubmissions(battleId, userId,
processingDate)`: fetch the user's pending rows, settle each one, apply
the count-based combo bonus, replace the user's status effects, update
the user's aggregate row, and subtract the day's damage from the
opponent's hit points with a floor of zero.  When the user-stats or
opponent-stats row is missing the JavaScript would fault on the missing
row (caught by the caller, leaving this battle unsettled); that branch is
modelled as leaving the store unchanged and is excluded by the
well-formedness hypotheses of the theorems below.  The function is split
into this core (the straight-line body run once the battle row and both
stats rows have been fetched) and a dispatching wrapper. -/
def processPlayerSubmissionsCore (evalFn : Evaluator) (today : Nat)
    (st : Store) (battleId userId : Nat) (d : Date)
    (battle : Battle) (userStats opponentStats : UserStats) : Store :=
  let rows := pendingJoined st battleId userId d
  let opponentId := getOpponentId battle userId
  let st1 : Store := { st with checkins := st.checkins.map (fun c =>
    if isPendingFor battleId userId d c then
      match findQuest st.quests c.quest_id with
      | some q => settleCheckin (evalFn q c.completed c.value userStats) today c
      | none => c
    else c) }
  let acc := dayAccum evalFn userStats rows
  let completedQuests := rows.filter (fun cq => cq.1.completed)
  let newUserStats := applyStatusEffects st.status_effects today userStats acc.statusEffectsToApply
  let finalDamage : Int := dayFinalDamage evalFn userStats rows
  let finalXP : Int := dayFinalXP evalFn userStats rows
  let newXP := userStats.xp + finalXP
  let newStreak := if 0 < completedQuests.length then userStats.streak + 1
                   else max 0 (userStats.streak - 1)
  let newLevel := newXP.fdiv 100 + 1
  let st2 := updateStatsRow st1 battleId userId (fun s =>
    { s with xp := newXP, streak := newStreak, level := newLevel,
             status_effects := newUserStats.status_effects,
             total_damage_dealt := s.total_damage_dealt + finalDamage,
             last_action_date := some d })
  updateStatsRow st2 battleId opponentId (fun s =>
    { s with hp := max 0 (opponentStats.hp - finalDamage) })

/-- `DailyBattleProcessor.processPlayerSubmissions(battleId, userId,
processingDate)`: nothing happens when no pending rows exist; otherwise
the battle row and both stats rows are fetched and the core body runs. -/
def processPlayerSubmissions (evalFn : Evaluator) (today : Nat)
    (st : Store) (battleId userId : Nat) (d : Date) : Store :=
  if (pendingJoined st battleId userId d).isEmpty then st else
  match findBattle st battleId, lookupStats st battleId userId with
  | some battle, some userStats =>
    match lookupStats st battleId (getOpponentId battle userId) with
    | some opponentStats =>
      processPlayerSubmissionsCore evalFn today st battleId userId d battle userStats
        opponentStats
    | none => st
  | _, _ => st

/-- `updateBattleStats`: stamp the battle's `last_processed_date`. -/
def updateBattleStats (st : Store) (battleId : Nat) (d : Date) : Store :=
  { st with battles := st.battles.map (fun b =>
      if b.id == battleId then { b with last_processed_date := some d } else b) }

/-- `processBattleDay(battleId, processingDate)`: process both players'
submissions, then stamp the battle. -/
def processBattleDay (evalFn : Evaluator) (today : Nat)
    (st : Store) (battleId : Nat) (d : Date) : Store :=
  match findBattle st battleId with
  | none => st
  | some battle =>
    let st1 := processPlayerSubmissions evalFn today st battleId battle.player1_id d
    let st2 := processPlayerSubmissions evalFn today st1 battleId battle.player2_id d
    updateBattleStats st2 battleId d

/-- `SELECT DISTINCT battle_id FROM checkins WHERE date = $1 AND
processed_at IS NULL` (the snapshot taken at the start of step 1). -/
def battlesWithUnprocessed (st : Store) (d : Date) : List Nat :=
  ((st.checkins.filter (fun c => c.date == d && c.processed_at == none)).map
    (fun c => c.battle_id)).dedup

/-- Step 1 of `processDaily`: settle every battle that still has pending
checkins for the date. -/
def processUnprocessedCheckins (evalFn : Evaluator) (today : Nat)
    (st : Store) (d : Date) : Store :=
  (battlesWithUnprocessed st d).foldl (fun s bid => processBattleDay evalFn today s bid d) st

/-- Is there a narrative record for the battle and date? -/
def hasLogFor (st : Store) (battleId : Nat) (d : Date) : Bool :=
  st.logs.any (fun l => l.battle_id == battleId && l.date == d)

/-- The narrative records stored for the battle and date. -/
def logsFor (st : Store) (battleId : Nat) (d : Date) : List LogEntry :=
  st.logs.filter (fun l => l.battle_id == battleId && l.date == d)

/-- `EXISTS (SELECT 1 FROM checkins WHERE battle_id AND user_id AND date)`. -/
def hasSubmissionBy (st : Store) (battleId userId : Nat) (d : Date) : Bool :=
  st.checkins.any (fun c => c.battle_id == battleId && c.user_id == userId && c.date == d)

/-- The battles selected by `generateDailyBattleNarratives`: active, at
least one participant submitted on the date, and no log row exists yet
for the (battle, date) pair. -/
def battlesNeedingNarratives (st : Store) (d : Date) : List Battle :=
  st.battles.filter (fun b => b.status == "active"
    && (hasSubmissionBy st b.id b.player1_id d || hasSubmissionBy st b.id b.player2_id d)
    && !hasLogFor st b.id d)

/-- `generateBattleNarrative(battleId, processingDate)`: insert the log
row, then mark the battle `completed` if any of its combatant rows is at
or below zero hit points. -/
def generateBattleNarrative (narrFn : Narrator) (st : Store) (battleId : Nat) (d : Date) : Store :=
  let st1 : Store :=
    { st with logs := st.logs ++ [{ battle_id := battleId, date := d,
                                    log_text := narrFn battleId d }] }
  let hasDefeatedPlayer :=
    (st1.battle_user_stats.filter (fun s => s.battle_id == battleId)).any (fun s => s.hp ≤ 0)
  if hasDefeatedPlayer then
    { st1 with battles := st1.battles.map (fun b =>
        if b.id == battleId then { b with status := "completed" } else b) }
  else st1

/-- Step 2 of `processDaily`: one narrative per selected battle (the
selection is a snapshot taken before any narrative is inserted). -/
def generateDailyBattleNarratives (narrFn : Narrator) (st : Store) (d : Date) : Store :=
  (battlesNeedingNarratives st d).foldl
    (fun s b => generateBattleNarrative narrFn s b.id d) st

/-- Step 6 of `processDaily`, `cleanupExpiredStatusEffects`: drop every
stored effect whose expiry date is before the processing date, for every
combatant row. -/
def cleanupExpiredStatusEffects (st : Store) (d : Date) : Store :=
  { st with battle_user_stats := st.battle_user_stats.map (fun s =>
      { s with status_effects := s.status_effects.filter (fun e => d.rd ≤ e.expires_at) }) }

/-- `DailyBattleProcessor.processDaily(targetDate)`, restricted to the
steps that read or write `checkins`, `battle_user_stats`, `battles` and
`logs` (steps 1, 2 and 6).  Steps 3-5 (weekly tournaments, the monthly
boss, and random sidequest generation) write only the
`weekly_tournaments`, `monthly_boss_fights` and `battle_events` tables and
are modelled separately below. -/
def processDaily (evalFn : Evaluator) (narrFn : Narrator) (today : Nat)
    (st : Store) (d : Date) : Store :=
  cleanupExpiredStatusEffects
    (generateDailyBattleNarratives narrFn (processUnprocessedCheckins evalFn today st d) d) d

/-! ## Submission Ledger (`routes/checkins.js`)

The POST handler validates the battle, then scans the requested quests
against the store as it was before the request (no insert happens until
the whole scan is finished), and finally inserts every accepted quest
with one shared per-day sequence number. -/

/-- Does the frequency string name the sidequest recurrence class? -/
def isSidequestFreq (frequency : Option String) : Bool :=
  match frequency with
  | some f => jsToLower f == "sidequest"
  | none => false

/-- The `[startDate, endDate]` window computed by
`isQuestLockedForPeriod`, as an inclusive range of rata-die numbers:
daily and sidequest lock the single date, weekly locks the Monday-Sunday
span containing the date, monthly locks the calendar month, and an
unknown or missing frequency behaves like daily. -/
def periodWindow (frequency : Option String) (currentDate : Date) : Int × Int :=
  let rd : Int := currentDate.rd
  match frequency with
  | none => (rd, rd)
  | some f =>
    match jsToLower f with
    | "daily" => (rd, rd)
    | "weekly" =>
      let dayOfWeek := currentDate.jsDay
      let mondayOffset : Int := if dayOfWeek == 0 then -6 else 1 - (dayOfWeek : Int)
      (rd + mondayOffset, rd + mondayOffset + 6)
    | "monthly" =>
      let firstDay : Int := rd - ((currentDate.day : Int) - 1)
      (firstDay, firstDay + ((daysInMonth currentDate.year currentDate.month : Int) - 1))
    | "sidequest" => (rd, rd)
    | _ => (rd, rd)

/-- The sidequest pre-check of `isQuestLockedForPeriod`: a non-expired
`scheduled_sidequest` battle event whose JSON `quest_id` matches. -/
def hasValidSidequestEvent (st : Store) (battleId questId : Nat) (currentDate : Date) : Bool :=
  st.battle_events.any (fun e => e.battle_id == battleId
    && e.event_type == "scheduled_sidequest"
    && currentDate.rd ≤ e.expires_date.rd
    && e.quest_id == some questId)

/-- `isQuestLockedForPeriod(battle_id, user_id, quest_id, frequency,
currentDate)`: a sidequest without a valid event record is locked
outright; otherwise the quest is locked exactly when some prior
submission of the same quest by the same user in the same battle falls
inside the period window. -/
def isQuestLockedForPeriod (st : Store) (battleId userId questId : Nat)
    (frequency : Option String) (currentDate : Date) : Bool :=
  if isSidequestFreq frequency && !hasValidSidequestEvent st battleId questId currentDate then
    true
  else
    let w := periodWindow frequency currentDate
    st.checkins.any (fun c => c.battle_id == battleId && c.user_id == userId
      && c.quest_id == questId && w.1 ≤ (c.date.rd : Int) && (c.date.rd : Int) ≤ w.2)

/-- One entry of the request's `results` array. -/
structure ResultEntry where
  quest_id : Nat
  completed : Bool
  value : Option Int := none
deriving DecidableEq, Repr

/-- Result of the POST `/checkins` handler: the updated store plus the
quest ids that were stored and the quest ids that were rejected. -/
structure SubmitOutcome where
  store : Store
  accepted : List Nat := []
  rejected : List Nat := []
deriving DecidableEq, Repr

/-- An accepted entry of the scan phase: quest id, quest row, completion
flag and value. -/
structure ScanEntry where
  quest_id : Nat
  quest : Quest
  completed : Bool
  value : Option Int
deriving DecidableEq, Repr

/-- The scan phase of the handler: for each requested quest, reject a
missing quest, then a quest the Availability Gate declines, then a quest
locked for its period; everything else is queued for insertion.  The
whole scan runs against the pre-request store. -/
def scanResults (st : Store) (battleId userId : Nat) (dateStr : Date)
    (results : List ResultEntry) : List ScanEntry × List Nat :=
  results.foldl (fun acc r =>
    match findQuest st.quests r.quest_id with
    | none => (acc.1, acc.2 ++ [r.quest_id])
    | some quest =>
      if !(isQuestAvailable quest.frequency dateStr).available then
        (acc.1, acc.2 ++ [r.quest_id])
      else if isQuestLockedForPeriod st battleId userId r.quest_id quest.frequency dateStr then
        (acc.1, acc.2 ++ [r.quest_id])
      else
        (acc.1 ++ [{ quest_id := r.quest_id, quest := quest,
                     completed := r.completed, value := r.value }], acc.2)) ([], [])

/-- `MAX(submission_sequence)` over the user's checkins of the day (0
when there are none). -/
def maxSequence (st : Store) (battleId userId : Nat) (dateStr : Date) : Nat :=
  (st.checkins.filter (fun c => c.battle_id == battleId && c.user_id == userId
      && c.date == dateStr)).foldl (fun m c => max m c.submission_sequence) 0

/-- The POST `/checkins` handler: battle must exist and be active, the
caller must participate, the scan phase partitions the requested quests,
and when at least one quest survives, every surviving quest is inserted
as a fresh pending checkin carrying the shared sequence number.  Row ids
are generated by the database and never read by the modelled code, so
inserts carry id 0. -/
def processSubmitRequest (st : Store) (battleId userId : Nat) (dateStr : Date)
    (results : List ResultEntry) : SubmitOutcome :=
  match st.battles.find? (fun b => b.id == battleId && b.status == "active") with
  | none => { store := st, rejected := results.map (fun r => r.quest_id) }
  | some battle =>
    if battle.player1_id != userId && battle.player2_id != userId then
      { store := st, rejected := results.map (fun r => r.quest_id) }
    else
      let scan := scanResults st battleId userId dateStr results
      if scan.1.isEmpty then { store := st, rejected := scan.2 }
      else
        let currentSequence := maxSequence st battleId userId dateStr + 1
        let inserts : List Checkin := scan.1.map (fun q =>
          { id := 0, battle_id := battleId, user_id := userId, date := dateStr,
            quest_id := q.quest_id, value := q.value, completed := q.completed,
            submission_sequence := currentSequence, processed_at := none })
        { store := { st with checkins := st.checkins ++ inserts },
          accepted := scan.1.map (fun q => q.quest_id), rejected := scan.2 }

/-! ## Weekly tournaments (`rpg-engine.js`, `processWeeklyTournament`)

The resolver fetches both participants' aggregates for the week, picks a
winner by hit points with cumulative damage as tie-break, and then
performs an unconditional INSERT into `weekly_tournaments`.  Neither the
resolver, nor the POST `/tournaments/process/:battle_id` route, nor the
Sunday scheduler checks for an existing row, and the table carries no
uniqueness constraint on (battle_id, week_start). -/

/-- The aggregate row the tournament query builds per participant. -/
structure TournamentStats where
  user_id : Nat
  hp : Int
  total_damage_dealt : Int
deriving DecidableEq, Repr

/-- A `weekly_tournaments` row. -/
structure WeeklyTournamentRow where
  battle_id : Nat
  week_start : Date
  week_end : Date
  winner_id : Nat
  loser_id : Nat
  completed : Bool
deriving DecidableEq, Repr

/-- `RPGEngine.processWeeklyTournament(battle_id)` acting on the
`weekly_tournaments` table, given the participants' weekly aggregates
(order of the two rows as returned by the store): with fewer than two
participants nothing happens; otherwise a result row is appended.  The
reward/penalty payloads come from the narrative service or its fixed
fallback and are not read by any verified property. -/
def processWeeklyTournament (weekStart weekEnd : Date)
    (statsRows : List TournamentStats) (rows : List WeeklyTournamentRow)
    (battleId : Nat) : List WeeklyTournamentRow :=
  match statsRows with
  | p1 :: p2 :: _ =>
    let wl : TournamentStats × TournamentStats :=
      if p1.hp > p2.hp then (p1, p2)
      else if p2.hp > p1.hp then (p2, p1)
      else if p1.total_damage_dealt ≥ p2.total_damage_dealt then (p1, p2)
      else (p2, p1)
    rows ++ [{ battle_id := battleId, week_start := weekStart, week_end := weekEnd,
               winner_id := wl.1.user_id, loser_id := wl.2.user_id, completed := true }]
  | _ => rows

/-- The rows stored for one (battle, week) pair. -/
def tournamentRowsFor (rows : List WeeklyTournamentRow) (battleId : Nat)
    (weekStart : Date) : List WeeklyTournamentRow :=
  rows.filter (fun r => r.battle_id == battleId && r.week_start == weekStart)

/-! ## Monthly boss (`routes/boss-fights.js`)

The boss row is the only state these handlers touch that matters to the
verified properties; reward distribution is abstracted to a counter of
distribution events (`distributeVictoryRewards` runs once per event and
touches every participating user each time). -/

/-- A `monthly_boss_fights` row together with the number of reward
distributions performed for it. -/
structure BossState where
  boss_hp : Int
  boss_max_hp : Int
  status : String
  rewardsDistributed : Nat
deriving DecidableEq, Repr

/-- A freshly created boss (`createMonthlyBoss`): full hit points and
`active` status; no rewards have been distributed. -/
def freshBoss (maxHp : Int) : BossState :=
  { boss_hp := maxHp, boss_max_hp := maxHp, status := "active", rewardsDistributed := 0 }

/-- GET `/boss-fights/current`: recompute the stored hit points as
`max(0, boss_max_hp - totalDamage)` where `totalDamage` is the month's
summed completed-quest damage across participating battles.  The handler
never touches the status or the rewards. -/
def bossCurrentOp (totalDamage : Nat) (b : BossState) : BossState :=
  { b with boss_hp := max 0 (b.boss_max_hp - totalDamage) }

/-- POST `/boss-fights/attack`: the boss is fetched with a
`status = 'active'` filter (404 otherwise); a boss already at or below
zero hit points or a day without damage is rejected (400).  Otherwise
today's damage is applied with a floor of zero, and if the boss reaches
zero the status flips to `completed` and the victory rewards are
distributed once. -/
def bossAttackOp (damageToday : Nat) (b : BossState) : BossState :=
  if b.status != "active" then b
  else if b.boss_hp ≤ 0 then b
  else if damageToday == 0 then b
  else
    let newBossHP : Int := max 0 (b.boss_hp - damageToday)
    if newBossHP ≤ 0 then
      { b with boss_hp := newBossHP, status := "completed",
               rewardsDistributed := b.rewardsDistributed + 1 }
    else { b with boss_hp := newBossHP }

/-- One invocation against the boss endpoints. -/
inductive BossOp where
  | current (totalDamage : Nat)
  | attack (damageToday : Nat)
deriving DecidableEq, Repr

/-- Apply one endpoint invocation. -/
def applyBossOp (b : BossState) : BossOp → BossState
  | .current n => bossCurrentOp n b
  | .attack n => bossAttackOp n b

/-- Apply a sequence of endpoint invocations, oldest first. -/
def runBossOps (b : BossState) (ops : List BossOp) : BossState :=
  ops.foldl applyBossOp b

/-! ## Derived notions used by the verified properties -/

/-- The lifecycle state of a battle, if the battle exists. -/
def statusOf (st : Store) (battleId : Nat) : Option String :=
  (findBattle st battleId).map (fun b => b.status)

/-- Number of stored checkins whose quest has the sidequest recurrence
class. -/
def countSidequestCheckins (st : Store) : Nat :=
  (st.checkins.filter (fun c =>
    match findQuest st.quests c.quest_id with
    | some q => isSidequestFreq q.frequency
    | none => false)).length

/-- The reward-distribution invariant of the monthly boss: an active boss
has distributed nothing, a completed boss has distributed exactly once. -/
def BossInv (b : BossState) : Prop :=
  (b.status = "active" ∧ b.rewardsDistributed = 0) ∨
    (b.status = "completed" ∧ b.rewardsDistributed = 1)

/-- Evaluation of one fetched row, with the user stats read before the
loop. -/
def evalRow (evalFn : Evaluator) (us : UserStats) (cq : Checkin × Quest) : Evaluation :=
  evalFn cq.2 cq.1.completed cq.1.value us

/-! ## Concrete fixtures

Small concrete rows and stores used by the closed evaluation theorems and
the witnesses. -/

/-- 2025-01-10, the date used by the concrete scenarios. -/
def fxDate : Date := ⟨2025, 1, 10⟩

/-- An active battle between users 1 and 2. -/
def fxBattle : Battle := { id := 1, player1_id := 1, player2_id := 2, status := "active" }

/-- A daily quest of user 1. -/
def fxQuestRun : Quest :=
  { id := 5, name := "Run", quest_type := "attack", difficulty := some "medium",
    frequency := some "daily" }

/-- A second daily quest of user 1. -/
def fxQuestRead : Quest :=
  { id := 6, name := "Read", quest_type := "attack", difficulty := some "medium",
    frequency := some "daily" }

/-- A stored `Frozen` debuff exactly as `applyStatusEffects` writes it
from the seeded definitions table: the payload (with
`combo_blocked: true`) sits under the key `effects`, the key `effect` is
absent, and the effect has not expired on `fxDate`. -/
def fxFrozen : StoredEffect :=
  { name := "Frozen", effect_type := "debuff", effects := { combo_blocked := true },
    expires_at := fxDate.rd + 1 }

/-- Combatant state of user 1, carrying the unexpired `Frozen` debuff. -/
def fxStats1 : UserStats :=
  { battle_id := 1, user_id := 1, hp := 100, xp := 0, streak := 0, level := 1,
    status_effects := [fxFrozen] }

/-- Combatant state of user 2. -/
def fxStats2 : UserStats :=
  { battle_id := 1, user_id := 2, hp := 100, xp := 0, streak := 0, level := 1 }

/-- A pending completed submission of quest 5. -/
def fxCheckin1 : Checkin :=
  { id := 11, battle_id := 1, user_id := 1, date := fxDate, quest_id := 5,
    completed := true, submission_sequence := 1 }

/-- A pending completed submission of quest 6. -/
def fxCheckin2 : Checkin :=
  { id := 12, battle_id := 1, user_id := 1, date := fxDate, quest_id := 6,
    completed := true, submission_sequence := 2 }

/-- A store with two pending submissions of user 1 awaiting settlement. -/
def fxPendingStore : Store :=
  { battles := [fxBattle], quests := [fxQuestRun, fxQuestRead],
    checkins := [fxCheckin1, fxCheckin2], battle_user_stats := [fxStats1, fxStats2] }

/-- A deterministic evaluator scoring every submission as an average
completion worth 15 damage and 8 XP (the fallback values for a medium
quest). -/
def fxEval : Evaluator := fun _ _ _ _ =>
  { quality := "average", damage_dealt := 15, xp_gained := 8, is_critical_hit := false }

/-- A constant narrator. -/
def fxNarr : Narrator := fun _ _ => "battle log"

/-- A store with no submissions yet (used by the duplicate-request
scenario). -/
def fxFreshStore : Store :=
  { battles := [fxBattle], quests := [fxQuestRun],
    battle_user_stats := [fxStats1, fxStats2] }

/-- The settled counterpart of `fxCheckin1` after a first run. -/
def fxSettledCheckin : Checkin :=
  { fxCheckin1 with
    processed_at := some fxDate.rd, damage_dealt := 15, xp_gained := 8, llm_score := 23 }

/-- A fully settled store for the date: the only submission carries its
settlement marker, the narrative record exists, and no stored effect has
expired. -/
def fxSettledStore : Store :=
  { battles := [fxBattle], quests := [fxQuestRun],
    checkins := [fxSettledCheckin],
    battle_user_stats := [{ fxStats1 with xp := 8, streak := 1, total_damage_dealt := 15 },
                          { fxStats2 with hp := 85 }],
    logs := [{ battle_id := 1, date := fxDate, log_text := "battle log" }] }

/-- A non-expired `scheduled_sidequest` event record valid on `fxDate`. -/
def fxSidequestEvent : BattleEvent :=
  { battle_id := 1, event_type := "scheduled_sidequest", quest_id := some 5,
    expires_date := ⟨2025, 1, 11⟩ }

/-- An existing tournament result row for battle 1 and the week starting
2024-12-30. -/
def fxTournamentRow : WeeklyTournamentRow :=
  { battle_id := 1, week_start := ⟨2024, 12, 30⟩, week_end := ⟨2025, 1, 5⟩,
    winner_id := 1, loser_id := 2, completed := true }

/-- Weekly aggregate of participant A: 80 HP, 200 cumulative damage. -/
def fxWeekStatsA : TournamentStats := { user_id := 1, hp := 80, total_damage_dealt := 200 }

/-- Weekly aggregate of participant B: 80 HP, 150 cumulative damage. -/
def fxWeekStatsB : TournamentStats := { user_id := 2, hp := 80, total_damage_dealt := 150 }

/-- A heavy fitness quest (used by the scorer-fallback witness). -/
def fxQuestHeavy : Quest :=
  { id := 7, name := "Gym session", quest_type := "attack", difficulty := some "heavy",
    frequency := some "daily", category := some "fitness" }

/-! ## Verified properties -/

/-- Helper: the fallback outcome of a completed submission, by difficulty
class. -/
theorem getFallbackScoring_completed (quest : Quest) (checkinData : CheckinData)
    (hc : checkinData.completed = true)
    (hdiff : questDifficulty quest = "light" ∨ questDifficulty quest = "medium" ∨
      questDifficulty quest = "heavy") :
    getFallbackScoring quest checkinData =
      { quality := some "average",
        damage_dealt := some (if questDifficulty quest = "light" then 8
          else if questDifficulty quest = "medium" then 15 else 25),
        xp_gained := some (if questDifficulty quest = "light" then 3
          else if questDifficulty quest = "medium" then 8 else 15),
        is_critical_hit := some false,
        status_effects_applied := some [],
        narrative := some (quest.name ++ " completed!"),
        multiplier := some 1 } := by
  rcases hdiff with h | h | h <;>
    simp [getFallbackScoring, h, hc, fallbackBaseDamage, fallbackBaseXP]

/-- Helper: the fallback outcome of a failed submission, by difficulty
class. -/
theorem getFallbackScoring_failed (quest : Quest) (checkinData : CheckinData)
    (hc : checkinData.completed = false)
    (hdiff : questDifficulty quest = "light" ∨ questDifficulty quest = "medium" ∨
      questDifficulty quest = "heavy") :
    getFallbackScoring quest checkinData =
      { quality := some "failed",
        damage_dealt := some 0,
        xp_gained := some 0,
        is_critical_hit := some false,
        status_effects_applied := some (getFailureStatusEffects quest),
        narrative := some (quest.name ++ " failed!"),
        multiplier := some 0,
        hp_loss := some (if questDifficulty quest = "light" then 4
          else if questDifficulty quest = "medium" then 9 else 15) } := by
  rcases hdiff with h | h | h <;>
    simp [getFallbackScoring, h, hc, fallbackBaseDamage, fallbackBaseXP] <;>
    norm_num

/-- C3 (amended): whenever the external scorer call errors or its
response fails JSON parsing (the `ScorerResponse.failure` case), quest
evaluation returns the deterministic fallback outcome without consulting
the scorer again and without caching: a completed submission yields
quality `average`, the fixed base damage/XP of the quest's difficulty
class (light 8/3, medium 15/8, heavy 25/15) and no critical hit; a failed
submission yields quality `failed` with zero damage and XP plus the
debuff names derived from the quest's name and category keywords.  (The
original claim also covered parseable responses that do not match the
outcome schema; those are returned as-is, see the counterexample.) -/
theorem c3_scorer_fallback_amended (cache : List (CacheKey × RawOutcome)) (quest : Quest)
    (checkinData : CheckinData)
    (hmiss : lookupCache cache (cacheKeyOf quest checkinData) = none)
    (hdiff : questDifficulty quest = "light" ∨ questDifficulty quest = "medium" ∨
      questDifficulty quest = "heavy") :
    (evaluateQuestCompletion cache .failure quest checkinData).2 = cache ∧
    (checkinData.completed = true →
      (evaluateQuestCompletion cache .failure quest checkinData).1 =
        { quality := some "average",
          damage_dealt := some (if questDifficulty quest = "light" then 8
            else if questDifficulty quest = "medium" then 15 else 25),
          xp_gained := some (if questDifficulty quest = "light" then 3
            else if questDifficulty quest = "medium" then 8 else 15),
          is_critical_hit := some false,
          status_effects_applied := some [],
          narrative := some (quest.name ++ " completed!"),
          multiplier := some 1 }) ∧
    (checkinData.completed = false →
      (evaluateQuestCompletion cache .failure quest checkinData).1 =
        { quality := some "failed",
          damage_dealt := some 0,
          xp_gained := some 0,
          is_critical_hit := some false,
          status_effects_applied := some (getFailureStatusEffects quest),
          narrative := some (quest.name ++ " failed!"),
          multiplier := some 0,
          hp_loss := some (if questDifficulty quest = "light" then 4
            else if questDifficulty quest = "medium" then 9 else 15) }) := by
  refine ⟨?_, ?_, ?_⟩
  · simp [evaluateQuestCompletion, hmiss]
  · intro hc
    simp only [evaluateQuestCompletion, hmiss]
    exact getFallbackScoring_completed quest checkinData hc hdiff
  · intro hc
    simp only [evaluateQuestCompletion, hmiss]
    exact getFallbackScoring_failed quest checkinData hc hdiff

/-- Witness for C3 (amended), at a heavy completed quest with an empty
cache. -/
theorem c3_scorer_fallback_witness :
    (lookupCache [] (cacheKeyOf fxQuestHeavy { completed := true }) = none ∧
      questDifficulty fxQuestHeavy = "heavy") ∧
    ((evaluateQuestCompletion [] .failure fxQuestHeavy { completed := true }).2 = [] ∧
      (({ completed := true } : CheckinData).completed = true →
        (evaluateQuestCompletion [] .failure fxQuestHeavy { completed := true }).1 =
          { quality := some "average",
            damage_dealt := some (if questDifficulty fxQuestHeavy = "light" then 8
              else if questDifficulty fxQuestHeavy = "medium" then 15 else 25),
            xp_gained := some (if questDifficulty fxQuestHeavy = "light" then 3
              else if questDifficulty fxQuestHeavy = "medium" then 8 else 15),
            is_critical_hit := some false,
            status_effects_applied := some [],
            narrative := some (fxQuestHeavy.name ++ " completed!"),
            multiplier := some 1 }) ∧
      (({ completed := true } : CheckinData).completed = false →
        (evaluateQuestCompletion [] .failure fxQuestHeavy { completed := true }).1 =
          { quality := some "failed",
            damage_dealt := some 0,
            xp_gained := some 0,
            is_critical_hit := some false,
            status_effects_applied := some (getFailureStatusEffects fxQuestHeavy),
            narrative := some (fxQuestHeavy.name ++ " failed!"),
            multiplier := some 0,
            hp_loss := some (if questDifficulty fxQuestHeavy = "light" then 4
              else if questDifficulty fxQuestHeavy = "medium" then 9 else 15) })) :=
  ⟨⟨rfl, rfl⟩,
    c3_scorer_fallback_amended [] fxQuestHeavy { completed := true } rfl
      (Or.inr (Or.inr rfl))⟩

/-- C3 (counterexample): a scorer response that parses as JSON but is not
a well-formed outcome object (here: a parsed value carrying none of the
outcome keys) is returned as the evaluation result instead of the
deterministic fallback — `evaluateQuestCompletion` performs no schema
validation, so a malformed-but-parseable response does not trigger the
fallback. -/
theorem c3_scorer_fallback_counterexample :
    (evaluateQuestCompletion [] (.parsed {}) fxQuestHeavy { completed := true }).1.quality
        = none ∧
    (getFallbackScoring fxQuestHeavy { completed := true }).quality = some "average" ∧
    (evaluateQuestCompletion [] (.parsed {}) fxQuestHeavy { completed := true }).1 ≠
      getFallbackScoring fxQuestHeavy { completed := true } := by
  refine ⟨rfl, rfl, ?_⟩
  decide

/-- C5 (failing input): a single POST `/checkins` request whose `results`
array lists quest 5 twice is accepted in full — the period-lock check of
both entries runs against the store before any insert of the request, so
two checkins of the same (battle, user, quest, date) are stored, although
the store held none beforehand. -/
theorem c5_duplicate_request_failing_input :
    (fxFreshStore.checkins.filter (fun c => c.battle_id == 1 && c.user_id == 1 &&
        c.quest_id == 5 && c.date == fxDate)).length = 0 ∧
    ((processSubmitRequest fxFreshStore 1 1 fxDate
        [{ quest_id := 5, completed := true }, { quest_id := 5, completed := true }]).store.checkins.filter
      (fun c => c.battle_id == 1 && c.user_id == 1 && c.quest_id == 5 &&
        c.date == fxDate)).length = 2 ∧
    (processSubmitRequest fxFreshStore 1 1 fxDate
      [{ quest_id := 5, completed := true }, { quest_id := 5, completed := true }]).accepted
        = [5, 5] := by
  decide

/-- C7 (counterexample): the Availability Gate reports a sidequest as not
available even when a separately generated, non-expired
`scheduled_sidequest` event record exists — the gate (a pure function of
recurrence class and date) never consults event records, contradicting
the claimed delegation "not available unless such a record exists". -/
theorem c7_sidequest_gate_counterexample :
    sidequestAvailableSpec [fxSidequestEvent] fxDate = true ∧
    (isQuestAvailable (some "sidequest") fxDate).available = false := by
  decide

/-- C7 (amended): the availability gate returns available for daily on
every date; for weekly exactly on Saturdays and Sundays (JS weekday 6 and
0); for monthly exactly when `lastDayOfMonth - dayOfMonth <= 2`; for an
unknown or missing recurrence class it behaves like daily; and for
sidequest it always reports not available, regardless of any event record
(sidequests are handled outside the gate). -/
theorem c7_availability_amended :
    ∀ d : Date,
      (isQuestAvailable (some "daily") d).available = true ∧
      (isQuestAvailable (some "weekly") d).available = (d.jsDay == 0 || d.jsDay == 6) ∧
      (isQuestAvailable (some "monthly") d).available
        = decide (daysInMonth d.year d.month - d.day ≤ 2) ∧
      (isQuestAvailable (some "sidequest") d).available = false ∧
      (isQuestAvailable none d).available = true ∧
      (∀ f : String, jsToLower f ≠ "daily" → jsToLower f ≠ "weekly" →
        jsToLower f ≠ "monthly" → jsToLower f ≠ "sidequest" →
        (isQuestAvailable (some f) d).available = true) := by
  intro d
  refine ⟨rfl, rfl, rfl, rfl, rfl, ?_⟩
  intro f h1 h2 h3 h4
  simp only [isQuestAvailable]

/-- Witness for C7 (amended): an unknown recurrence class on a concrete
date behaves like daily. -/
theorem c7_availability_witness :
    (jsToLower "bogus" ≠ "daily" ∧ jsToLower "bogus" ≠ "weekly" ∧
      jsToLower "bogus" ≠ "monthly" ∧ jsToLower "bogus" ≠ "sidequest") ∧
    (isQuestAvailable (some "bogus") ⟨2025, 1, 4⟩).available = true :=
  ⟨⟨by decide, by decide, by decide, by decide⟩,
    (c7_availability_amended ⟨2025, 1, 4⟩).2.2.2.2.2 "bogus" (by decide) (by decide)
      (by decide) (by decide)⟩

/-- C8 (counterexample): from a fresh boss with 1000 maximum hit points,
one hit-point recomputation through GET `/boss-fights/current` with 1000
total completed-quest damage this month leaves the boss at 0 hit points
with status still `active` and no rewards distributed — reaching 0 HP did
not transition the boss to `completed`; moreover two subsequent attack
invocations still distribute nothing, because the attack handler rejects
a boss already at 0 HP before transitioning it. -/
theorem c8_boss_reward_counterexample :
    (runBossOps (freshBoss 1000) [.current 1000]).boss_hp = 0 ∧
    (runBossOps (freshBoss 1000) [.current 1000]).status = "active" ∧
    (runBossOps (freshBoss 1000) [.current 1000]).rewardsDistributed = 0 ∧
    (runBossOps (freshBoss 1000) [.current 1000, .attack 50, .attack 50]).rewardsDistributed
      = 0 := by
  decide

/-- Helper: one boss-endpoint invocation preserves the
reward-distribution invariant. -/
theorem applyBossOp_bossInv (b : BossState) (op : BossOp) (hb : BossInv b) :
    BossInv (applyBossOp b op) := by
  cases op with
  | current n => exact hb
  | attack n =>
    show BossInv (bossAttackOp n b)
    rcases hb with ⟨h1, h2⟩ | ⟨h1, h2⟩
    · have hcond : ¬((b.status != "active") = true) := by rw [h1]; decide
      rw [bossAttackOp, if_neg hcond]
      split
      · exact Or.inl ⟨h1, h2⟩
      · split
        · exact Or.inl ⟨h1, h2⟩
        · dsimp only
          split
          · exact Or.inr ⟨rfl, by rw [h2]⟩
          · exact Or.inl ⟨h1, h2⟩
    · have hcond : (b.status != "active") = true := by rw [h1]; decide
      rw [bossAttackOp, if_pos hcond]
      exact Or.inr ⟨h1, h2⟩

/-- Helper: after the boss is `completed`, no invocation changes the
status or distributes again. -/
theorem applyBossOp_completed (b : BossState) (op : BossOp) (h : b.status = "completed") :
    (applyBossOp b op).status = "completed" ∧
      (applyBossOp b op).rewardsDistributed = b.rewardsDistributed := by
  cases op with
  | current n => exact ⟨h, rfl⟩
  | attack n =>
    have hne : (b.status != "active") = true := by rw [h]; decide
    have hb : applyBossOp b (.attack n) = b := by
      show bossAttackOp n b = b
      rw [bossAttackOp, if_pos hne]
    rw [hb]
    exact ⟨h, rfl⟩

/-- Helper: the invariant is preserved by any sequence of invocations. -/
theorem runBossOps_bossInv (ops : List BossOp) (b : BossState) (hb : BossInv b) :
    BossInv (runBossOps b ops) := by
  induction ops generalizing b with
  | nil => exact hb
  | cons op ops ih => exact ih (applyBossOp b op) (applyBossOp_bossInv b op hb)

/-- Helper: completion is absorbing for any sequence of invocations. -/
theorem runBossOps_completed (ops : List BossOp) (b : BossState) (h : b.status = "completed") :
    (runBossOps b ops).status = "completed" ∧
      (runBossOps b ops).rewardsDistributed = b.rewardsDistributed := by
  induction ops generalizing b with
  | nil => exact ⟨h, rfl⟩
  | cons op ops ih =>
    obtain ⟨h1, h2⟩ := applyBossOp_completed b op h
    obtain ⟨h3, h4⟩ := ih (applyBossOp b op) h1
    exact ⟨h3, h4.trans h2⟩

/-- C8 (amended): reward distribution is guarded on the boss status, not
on its hit points, and happens at most once: along any sequence of
boss-endpoint invocations from a state satisfying the distribution
invariant, the invariant is preserved, the total number of distributions
never exceeds one, a `completed` boss never changes status and never
distributes again, and it is exactly an attack against an `active` boss
with positive hit points and enough damage that flips the status to
`completed` and distributes the rewards once.  (The original claim said
reaching 0 HP always comes with the transition and the distribution; the
hit-point recomputation of GET `/boss-fights/current` can reach 0 HP
without either, see the counterexample.) -/
theorem c8_boss_reward_amended (b : BossState) (ops : List BossOp) (hb : BossInv b) :
    BossInv (runBossOps b ops) ∧
    (runBossOps b ops).rewardsDistributed ≤ 1 ∧
    (b.status = "completed" →
      (runBossOps b ops).status = "completed" ∧
      (runBossOps b ops).rewardsDistributed = b.rewardsDistributed) ∧
    (∀ n : Nat, b.status = "active" → 0 < b.boss_hp → b.boss_hp ≤ (n : Int) →
      (bossAttackOp n b).status = "completed" ∧
      (bossAttackOp n b).rewardsDistributed = b.rewardsDistributed + 1) := by
  refine ⟨runBossOps_bossInv ops b hb, ?_, runBossOps_completed ops b, ?_⟩
  · rcases runBossOps_bossInv ops b hb with ⟨_, h⟩ | ⟨_, h⟩ <;> omega
  · intro n h1 h2 h3
    have hact : (b.status != "active") = false := by rw [h1]; decide
    have hhp : (b.boss_hp ≤ 0) = False := by simp; omega
    have hn : (n == 0) = false := by
      have : 0 < (n : Int) := lt_of_lt_of_le h2 h3
      have : n ≠ 0 := by omega
      simp [this]
    have hmax : (max 0 (b.boss_hp - (n : Int)) ≤ 0) = True := by
      simp; omega
    rw [bossAttackOp, if_neg (by simp [hact]), if_neg (by omega), if_neg (by simp [hn])]
    rw [if_pos (by omega)]
    exact ⟨rfl, rfl⟩

/-- Witness for C8 (amended), from a fresh 1000-HP boss and a sequence
of three attacks. -/
theorem c8_boss_reward_witness :
    BossInv (freshBoss 1000) ∧
    (BossInv (runBossOps (freshBoss 1000) [.attack 400, .attack 700, .attack 5]) ∧
      (runBossOps (freshBoss 1000) [.attack 400, .attack 700, .attack 5]).rewardsDistributed ≤ 1 ∧
      ((freshBoss 1000).status = "completed" →
        (runBossOps (freshBoss 1000) [.attack 400, .attack 700, .attack 5]).status = "completed" ∧
        (runBossOps (freshBoss 1000) [.attack 400, .attack 700, .attack 5]).rewardsDistributed
          = (freshBoss 1000).rewardsDistributed) ∧
      (∀ n : Nat, (freshBoss 1000).status = "active" → 0 < (freshBoss 1000).boss_hp →
        (freshBoss 1000).boss_hp ≤ (n : Int) →
        (bossAttackOp n (freshBoss 1000)).status = "completed" ∧
        (bossAttackOp n (freshBoss 1000)).rewardsDistributed
          = (freshBoss 1000).rewardsDistributed + 1)) :=
  ⟨Or.inl ⟨rfl, rfl⟩,
    c8_boss_reward_amended (freshBoss 1000) [.attack 400, .attack 700, .attack 5]
      (Or.inl ⟨rfl, rfl⟩)⟩

/-- Helper: a row UPDATE guarded by a predicate the update preserves does
not disturb a lookup by that predicate beyond applying the update. -/
theorem find?_map_update_self {α : Type} (l : List α) (p : α → Bool) (f : α → α)
    (hp : ∀ x, p (f x) = p x) :
    (l.map (fun s => if p s then f s else s)).find? p = (l.find? p).map f := by
  induction l with
  | nil => rfl
  | cons a l ih =>
    simp only [List.map_cons]
    by_cases h : p a = true
    · rw [if_pos h, List.find?_cons_of_pos _ ((hp a).trans h),
        List.find?_cons_of_pos _ h]
      rfl
    · have h' : p a = false := by
        cases hpa : p a
        · rfl
        · exact absurd hpa h
      rw [if_neg (by simp [h']), List.find?_cons_of_neg _ (by simp [h']),
        List.find?_cons_of_neg _ (by simp [h'])]
      exact ih

/-- Helper: a row UPDATE guarded by one predicate does not disturb a
lookup by a disjoint predicate. -/
theorem find?_map_update_other {α : Type} (l : List α) (p q : α → Bool) (f : α → α)
    (hq : ∀ x, q (f x) = q x) (hpq : ∀ x, p x = true → q x = true → False) :
    (l.map (fun s => if p s then f s else s)).find? q = l.find? q := by
  induction l with
  | nil => rfl
  | cons a l ih =>
    simp only [List.map_cons]
    by_cases h : p a = true
    · have hqa : q a = false := by
        cases hqa : q a
        · rfl
        · exact absurd (hpq a h hqa) (by simp)
      rw [if_pos h, List.find?_cons_of_neg _ (by simp [(hq a).trans hqa]),
        List.find?_cons_of_neg _ (by simp [hqa])]
      exact ih
    · rw [if_neg h]
      by_cases hqa : q a = true
      · rw [List.find?_cons_of_pos _ hqa, List.find?_cons_of_pos _ hqa]
      · have hqa' : q a = false := by
          cases hq2 : q a
          · rfl
          · exact absurd hq2 hqa
        rw [List.find?_cons_of_neg _ (by simp [hqa']),
          List.find?_cons_of_neg _ (by simp [hqa'])]
        exact ih

/-- Helper: updating a combatant row and looking the same row up. -/
theorem lookupStats_updateStatsRow_self (st : Store) (b u : Nat) (f : UserStats → UserStats)
    (hkeys : ∀ s, (f s).battle_id = s.battle_id ∧ (f s).user_id = s.user_id) :
    lookupStats (updateStatsRow st b u f) b u = (lookupStats st b u).map f := by
  unfold lookupStats updateStatsRow
  exact find?_map_update_self _ _ _ (fun x => by
    simp only [(hkeys x).1, (hkeys x).2])

/-- Helper: updating one combatant row leaves lookups of other rows
unchanged. -/
theorem lookupStats_updateStatsRow_other (st : Store) (b u b' u' : Nat)
    (f : UserStats → UserStats)
    (hkeys : ∀ s, (f s).battle_id = s.battle_id ∧ (f s).user_id = s.user_id)
    (hne : ¬(b' = b ∧ u' = u)) :
    lookupStats (updateStatsRow st b u f) b' u' = lookupStats st b' u' := by
  unfold lookupStats updateStatsRow
  refine find?_map_update_other _ _ _ _ (fun x => by
    simp only [(hkeys x).1, (hkeys x).2]) (fun x hx hx' => ?_)
  simp only [Bool.and_eq_true, beq_iff_eq] at hx hx'
  exact hne ⟨hx'.1.symm.trans hx.1, hx'.2.symm.trans hx.2⟩

/-- Helper: replacing the checkins table does not affect stats lookups. -/
theorem lookupStats_setCheckins (st : Store) (cs : List Checkin) (b u : Nat) :
    lookupStats { st with checkins := cs } b u = lookupStats st b u := rfl

/-- Helper: the opponent of a participant is the other participant. -/
theorem getOpponentId_ne (battle : Battle) (userId : Nat)
    (hp12 : battle.player1_id ≠ battle.player2_id)
    (hu : userId = battle.player1_id ∨ userId = battle.player2_id) :
    getOpponentId battle userId ≠ userId := by
  unfold getOpponentId
  rcases hu with h | h <;> subst h
  · simp only [beq_self_eq_true, if_true]
    exact fun hc => hp12 hc.symm
  · by_cases hb : battle.player1_id == battle.player2_id
    · exact absurd (by simpa using hb) hp12
    · simp only [hb, if_false]
      exact hp12

/-- Helper: what one settlement pass of `processPlayerSubmissionsCore`
does to the two combatant rows. -/
theorem processPlayerSubmissionsCore_spec (evalFn : Evaluator) (today : Nat) (st : Store)
    (battleId userId : Nat) (d : Date) (battle : Battle) (us os : UserStats)
    (hus : lookupStats st battleId userId = some us)
    (hos : lookupStats st battleId (getOpponentId battle userId) = some os)
    (hne : getOpponentId battle userId ≠ userId) :
    lookupStats (processPlayerSubmissionsCore evalFn today st battleId userId d battle us os)
        battleId userId =
      some { us with
        xp := us.xp + dayFinalXP evalFn us (pendingJoined st battleId userId d),
        streak := if 0 < ((pendingJoined st battleId userId d).filter
            (fun cq => cq.1.completed)).length then us.streak + 1
          else max 0 (us.streak - 1),
        level := (us.xp + dayFinalXP evalFn us (pendingJoined st battleId userId d)).fdiv 100
          + 1,
        status_effects := (applyStatusEffects st.status_effects today us
          (dayAccum evalFn us (pendingJoined st battleId userId d)).statusEffectsToApply).status_effects,
        total_damage_dealt := us.total_damage_dealt +
          dayFinalDamage evalFn us (pendingJoined st battleId userId d),
        last_action_date := some d } ∧
    lookupStats (processPlayerSubmissionsCore evalFn today st battleId userId d battle us os)
        battleId (getOpponentId battle userId) =
      some { os with
        hp := max 0 (os.hp - dayFinalDamage evalFn us (pendingJoined st battleId userId d)) } := by
  constructor
  · simp only [processPlayerSubmissionsCore]
    rw [lookupStats_updateStatsRow_other, lookupStats_updateStatsRow_self,
      lookupStats_setCheckins, hus]
    all_goals first
      | rfl
      | exact fun s => ⟨rfl, rfl⟩
      | exact fun hc => hne hc.2.symm
  · simp only [processPlayerSubmissionsCore]
    rw [lookupStats_updateStatsRow_self, lookupStats_updateStatsRow_other,
      lookupStats_setCheckins, hos]
    all_goals first
      | rfl
      | exact fun s => ⟨rfl, rfl⟩
      | exact fun hc => hne hc.2

/-- Helper: with pending rows present and all three rows found, the
settlement pass is the core body. -/
theorem processPlayerSubmissions_eq_core (evalFn : Evaluator) (today : Nat) (st : Store)
    (battleId userId : Nat) (d : Date) (battle : Battle) (us os : UserStats)
    (hrows : pendingJoined st battleId userId d ≠ [])
    (hb : findBattle st battleId = some battle)
    (hus : lookupStats st battleId userId = some us)
    (hos : lookupStats st battleId (getOpponentId battle userId) = some os) :
    processPlayerSubmissions evalFn today st battleId userId d =
      processPlayerSubmissionsCore evalFn today st battleId userId d battle us os := by
  unfold processPlayerSubmissions
  rw [if_neg (by simp only [List.isEmpty_iff]; exact hrows), hb, hus]
  dsimp only
  rw [hos]

/-- Helper: the per-checkin loop totals are the sums of damage and XP
over the evaluations whose quality is not `failed`. -/
theorem dayAccum_totals (evalFn : Evaluator) (us : UserStats)
    (rows : List (Checkin × Quest)) :
    (dayAccum evalFn us rows).totalDamage =
      (((rows.map (evalRow evalFn us)).filter (fun ev => ev.quality != "failed")).map
        (fun ev => ev.damage_dealt)).sum ∧
    (dayAccum evalFn us rows).totalXP =
      (((rows.map (evalRow evalFn us)).filter (fun ev => ev.quality != "failed")).map
        (fun ev => ev.xp_gained)).sum := by
  suffices h : ∀ acc : DayAccum,
      ((rows.foldl (fun a cq => accumOutcome a (evalRow evalFn us cq)) acc).totalDamage =
        acc.totalDamage + (((rows.map (evalRow evalFn us)).filter
          (fun ev => ev.quality != "failed")).map (fun ev => ev.damage_dealt)).sum) ∧
      ((rows.foldl (fun a cq => accumOutcome a (evalRow evalFn us cq)) acc).totalXP =
        acc.totalXP + (((rows.map (evalRow evalFn us)).filter
          (fun ev => ev.quality != "failed")).map (fun ev => ev.xp_gained)).sum) by
    have h0 := h {}
    constructor
    · exact (h0.1.trans (by simp))
    · exact (h0.2.trans (by simp))
  induction rows with
  | nil => intro acc; simp
  | cons cq rows ih =>
    intro acc
    simp only [List.foldl_cons, List.map_cons]
    by_cases h : (evalRow evalFn us cq).quality != "failed"
    · rcases ih (accumOutcome acc (evalRow evalFn us cq)) with ⟨ih1, ih2⟩
      rw [List.filter_cons, if_pos h]
      simp only [List.map_cons, List.sum_cons]
      constructor
      · rw [ih1]
        show (accumOutcome acc (evalRow evalFn us cq)).totalDamage + _ = _
        rw [accumOutcome, if_pos h]
        ring
      · rw [ih2]
        show (accumOutcome acc (evalRow evalFn us cq)).totalXP + _ = _
        rw [accumOutcome, if_pos h]
        ring
    · rw [List.filter_cons, if_neg (by simpa using h)]
      have hacc : accumOutcome acc (evalRow evalFn us cq) = acc := by
        rw [accumOutcome, if_neg h]
      rw [hacc]
      exact ih acc

/-- C4: for a user settled on a day, the loop totals sum damage and XP
only over outcomes whose quality is not `failed`; the user's XP is
incremented by the day's XP total (after the combo bonus), the level is
recomputed as `floor(xp/100)+1`, the streak is incremented when at least
one submitted quest was completed and otherwise decays toward zero with a
floor of 0, the status-effect list is replaced via the Modifier Resolver
(`applyStatusEffects`), and the day's damage total is subtracted from the
opponent's hit points with a floor of 0. -/
theorem c4_settlement_aggregation (evalFn : Evaluator) (today : Nat) (st : Store)
    (battleId userId : Nat) (d : Date) (battle : Battle) (us os : UserStats)
    (hb : findBattle st battleId = some battle)
    (hp12 : battle.player1_id ≠ battle.player2_id)
    (hu : userId = battle.player1_id ∨ userId = battle.player2_id)
    (hus : lookupStats st battleId userId = some us)
    (hos : lookupStats st battleId (getOpponentId battle userId) = some os)
    (hrows : pendingJoined st battleId userId d ≠ []) :
    (dayAccum evalFn us (pendingJoined st battleId userId d)).totalDamage =
      ((((pendingJoined st battleId userId d).map (evalRow evalFn us)).filter
        (fun ev => ev.quality != "failed")).map (fun ev => ev.damage_dealt)).sum ∧
    (dayAccum evalFn us (pendingJoined st battleId userId d)).totalXP =
      ((((pendingJoined st battleId userId d).map (evalRow evalFn us)).filter
        (fun ev => ev.quality != "failed")).map (fun ev => ev.xp_gained)).sum ∧
    lookupStats (processPlayerSubmissions evalFn today st battleId userId d)
        battleId userId =
      some { us with
        xp := us.xp + dayFinalXP evalFn us (pendingJoined st battleId userId d),
        streak := if 0 < ((pendingJoined st battleId userId d).filter
            (fun cq => cq.1.completed)).length then us.streak + 1
          else max 0 (us.streak - 1),
        level := (us.xp + dayFinalXP evalFn us (pendingJoined st battleId userId d)).fdiv 100
          + 1,
        status_effects := (applyStatusEffects st.status_effects today us
          (dayAccum evalFn us (pendingJoined st battleId userId d)).statusEffectsToApply).status_effects,
        total_damage_dealt := us.total_damage_dealt +
          dayFinalDamage evalFn us (pendingJoined st battleId userId d),
        last_action_date := some d } ∧
    lookupStats (processPlayerSubmissions evalFn today st battleId userId d)
        battleId (getOpponentId battle userId) =
      some { os with
        hp := max 0 (os.hp - dayFinalDamage evalFn us (pendingJoined st battleId userId d)) } := by
  have hne := getOpponentId_ne battle userId hp12 hu
  have hdisp := processPlayerSubmissions_eq_core evalFn today st battleId userId d battle us os
    hrows hb hus hos
  have hspec := processPlayerSubmissionsCore_spec evalFn today st battleId userId d battle us os
    hus hos hne
  have htot := dayAccum_totals evalFn us (pendingJoined st battleId userId d)
  exact ⟨htot.1, htot.2, by rw [hdisp]; exact hspec.1, by rw [hdisp]; exact hspec.2⟩

/-- Witness for C4, settling the two pending submissions of the concrete
store. -/
theorem c4_settlement_aggregation_witness :
    (findBattle fxPendingStore 1 = some fxBattle ∧
      fxBattle.player1_id ≠ fxBattle.player2_id ∧
      lookupStats fxPendingStore 1 1 = some fxStats1 ∧
      lookupStats fxPendingStore 1 (getOpponentId fxBattle 1) = some fxStats2 ∧
      pendingJoined fxPendingStore 1 1 fxDate ≠ []) ∧
    lookupStats (processPlayerSubmissions fxEval fxDate.rd fxPendingStore 1 1 fxDate) 1
        (getOpponentId fxBattle 1) =
      some { fxStats2 with
        hp := max 0 (fxStats2.hp -
          dayFinalDamage fxEval fxStats1 (pendingJoined fxPendingStore 1 1 fxDate)) } :=
  ⟨⟨rfl, by decide, rfl, rfl, by decide⟩,
    (c4_settlement_aggregation fxEval fxDate.rd fxPendingStore 1 1 fxDate fxBattle fxStats1
      fxStats2 rfl (by decide) (Or.inl rfl) rfl rfl (by decide)).2.2.2⟩

/-- C2 (failing input): user 1 holds the engine-written `Frozen` debuff
whose payload (under the JSON key `effects`) has `combo_blocked: true`
and which has not expired on the settlement date, yet after settling the
user's two completed quests (15 base damage each) the opponent's hit
points drop to 64 = 100 - (30 + floor(30 * 0.2)): the x1.2 combo bonus is
applied despite the active combo-blocking debuff, because the block test
reads the absent JSON key `effect` instead of the stored key `effects`.
The claimed forced x1.0 multiplier would leave the opponent at 70. -/
theorem c2_combo_block_failing_input :
    fxFrozen.effects.combo_blocked = true ∧
    fxDate.rd ≤ fxFrozen.expires_at ∧
    fxStats1.status_effects = [fxFrozen] ∧
    (lookupStats (processPlayerSubmissions fxEval fxDate.rd fxPendingStore 1 1 fxDate) 1 2).map
      (fun s => s.hp) = some 64 ∧
    (lookupStats (processPlayerSubmissions fxEval fxDate.rd fxPendingStore 1 1 fxDate) 1 2).map
      (fun s => s.hp) ≠ some 70 := by
  have hne : getOpponentId fxBattle 1 ≠ 1 := by decide
  have hdisp := processPlayerSubmissions_eq_core fxEval fxDate.rd fxPendingStore 1 1 fxDate
    fxBattle fxStats1 fxStats2 (by decide) rfl rfl rfl
  have hspec := (processPlayerSubmissionsCore_spec fxEval fxDate.rd fxPendingStore 1 1 fxDate
    fxBattle fxStats1 fxStats2 rfl rfl hne).2
  have hrows : pendingJoined fxPendingStore 1 1 fxDate =
      [(fxCheckin1, fxQuestRun), (fxCheckin2, fxQuestRead)] := by decide
  have hdmg : dayFinalDamage fxEval fxStats1 [(fxCheckin1, fxQuestRun), (fxCheckin2, fxQuestRead)]
      = 36 := by
    have hblock : isComboBlocked fxStats1.status_effects = false := by decide
    rw [dayFinalDamage, dayTotals]
    simp +decide only [dayAccum, List.foldl_cons, List.foldl_nil, accumOutcome,
      fxEval, hblock, List.filter_cons, List.filter_nil, fxCheckin1, fxCheckin2]
    norm_num
  have hopp2 : getOpponentId fxBattle 1 = 2 := rfl
  rw [hopp2] at hspec
  rw [hrows, hdmg] at hspec
  refine ⟨rfl, by decide, rfl, ?_, ?_⟩
  · rw [hdisp, hspec]
    decide
  · rw [hdisp, hspec]
    decide

/-- Helper: when every submission of the date is already settled, step 1
selects no battle. -/
theorem battlesWithUnprocessed_nil (st : Store) (d : Date)
    (h1 : ∀ c ∈ st.checkins, c.date = d → c.processed_at ≠ none) :
    battlesWithUnprocessed st d = [] := by
  unfold battlesWithUnprocessed
  have hf : st.checkins.filter (fun c => c.date == d && c.processed_at == none) = [] := by
    rw [List.filter_eq_nil_iff]
    intro c hc
    simp only [Bool.and_eq_true, beq_iff_eq, not_and]
    intro hcd
    have := h1 c hc hcd
    simp only [ne_eq] at this
    simpa using this
  rw [hf]
  rfl

/-- Helper: step 1 is a no-op on a fully settled date. -/
theorem processUnprocessedCheckins_of_settled (evalFn : Evaluator) (today : Nat) (st : Store)
    (d : Date) (h1 : ∀ c ∈ st.checkins, c.date = d → c.processed_at ≠ none) :
    processUnprocessedCheckins evalFn today st d = st := by
  rw [processUnprocessedCheckins, battlesWithUnprocessed_nil st d h1]
  rfl

/-- Helper: a narrative step never touches combatant rows. -/
theorem generateBattleNarrative_stats (narrFn : Narrator) (st : Store) (battleId : Nat)
    (d : Date) :
    (generateBattleNarrative narrFn st battleId d).battle_user_stats = st.battle_user_stats := by
  unfold generateBattleNarrative
  dsimp only
  split <;> rfl

/-- Helper: a narrative step never touches checkins. -/
theorem generateBattleNarrative_checkins (narrFn : Narrator) (st : Store) (battleId : Nat)
    (d : Date) :
    (generateBattleNarrative narrFn st battleId d).checkins = st.checkins := by
  unfold generateBattleNarrative
  dsimp only
  split <;> rfl

/-- Helper: the log rows produced by a narrative step. -/
theorem generateBattleNarrative_logs (narrFn : Narrator) (st : Store) (battleId : Nat)
    (d : Date) :
    (generateBattleNarrative narrFn st battleId d).logs =
      st.logs ++ [{ battle_id := battleId, date := d, log_text := narrFn battleId d }] := by
  unfold generateBattleNarrative
  dsimp only
  split <;> rfl

/-- Helper: the narrative fold never touches combatant rows. -/
theorem narrFold_stats (narrFn : Narrator) (d : Date) (l : List Battle) (st : Store) :
    (l.foldl (fun s b => generateBattleNarrative narrFn s b.id d) st).battle_user_stats
      = st.battle_user_stats := by
  induction l generalizing st with
  | nil => rfl
  | cons b l ih =>
    rw [List.foldl_cons, ih, generateBattleNarrative_stats]

/-- Helper: the narrative fold never touches checkins. -/
theorem narrFold_checkins (narrFn : Narrator) (d : Date) (l : List Battle) (st : Store) :
    (l.foldl (fun s b => generateBattleNarrative narrFn s b.id d) st).checkins
      = st.checkins := by
  induction l generalizing st with
  | nil => rfl
  | cons b l ih =>
    rw [List.foldl_cons, ih, generateBattleNarrative_checkins]

/-- Helper: a narrative step for another battle does not change a
battle's stored narratives. -/
theorem generateBattleNarrative_logsFor_ne (narrFn : Narrator) (st : Store) (battleId : Nat)
    (d : Date) (bid : Nat) (d' : Date) (h : battleId ≠ bid) :
    logsFor (generateBattleNarrative narrFn st battleId d) bid d' = logsFor st bid d' := by
  unfold logsFor
  rw [generateBattleNarrative_logs, List.filter_append]
  simp [h]

/-- Helper: the narrative fold over battles other than `bid` does not
change `bid`'s stored narratives. -/
theorem narrFold_logsFor (narrFn : Narrator) (d : Date) (l : List Battle) (st : Store)
    (bid : Nat) (d' : Date) (hne : ∀ x ∈ l, x.id ≠ bid) :
    logsFor (l.foldl (fun s b => generateBattleNarrative narrFn s b.id d) st) bid d'
      = logsFor st bid d' := by
  induction l generalizing st with
  | nil => rfl
  | cons b l ih =>
    rw [List.foldl_cons, ih _ (fun x hx => hne x (List.mem_cons_of_mem b hx)),
      generateBattleNarrative_logsFor_ne _ _ _ _ _ _ (hne b (List.mem_cons_self b l))]

/-- Helper: the expiry cleanup leaves a combatant row without stale
effects unchanged. -/
theorem cleanup_stats_of_fresh (st : Store) (d : Date)
    (h2 : ∀ us ∈ st.battle_user_stats, ∀ e ∈ us.status_effects, d.rd ≤ e.expires_at) :
    (cleanupExpiredStatusEffects st d).battle_user_stats = st.battle_user_stats := by
  unfold cleanupExpiredStatusEffects
  show st.battle_user_stats.map _ = st.battle_user_stats
  refine (List.map_congr_left ?_).trans (List.map_id _)
  intro s hs
  show ({ s with status_effects := s.status_effects.filter (fun e => d.rd ≤ e.expires_at) } : UserStats) = id s
  have hf : s.status_effects.filter (fun e => d.rd ≤ e.expires_at) = s.status_effects :=
    List.filter_eq_self.mpr (fun e he => by simpa using h2 s hs e he)
  rw [hf]
  rfl

/-- Helper: membership in the narrative selection implies the battle had
no narrative record yet. -/
theorem mem_battlesNeedingNarratives_no_log (st : Store) (d : Date) (b : Battle)
    (hb : b ∈ battlesNeedingNarratives st d) : hasLogFor st b.id d = false := by
  have := List.of_mem_filter hb
  simp only [Bool.and_eq_true, Bool.not_eq_true'] at this
  exact this.2

/-- C1: running the daily settlement again for a date on which every
submission is already settled is a no-op on combatant state — no
hit-point, XP, level, streak, status-effect or cumulative-damage change
and hence no additional damage to either opponent — re-settles no
submission (the checkins table is unchanged, so each submission keeps the
single settlement marker it got when it was settled), and creates no
second narrative record for any battle that already has one for the date.
The second hypothesis (no stored effect has expired before the date)
always holds after a completed run for that date, whose cleanup step
drops exactly those effects. -/
theorem c1_settlement_idempotent (evalFn : Evaluator) (narrFn : Narrator) (today : Nat)
    (st : Store) (d : Date)
    (h1 : ∀ c ∈ st.checkins, c.date = d → c.processed_at ≠ none)
    (h2 : ∀ us ∈ st.battle_user_stats, ∀ e ∈ us.status_effects, d.rd ≤ e.expires_at) :
    (processDaily evalFn narrFn today st d).battle_user_stats = st.battle_user_stats ∧
    (processDaily evalFn narrFn today st d).checkins = st.checkins ∧
    ∀ b : Nat, hasLogFor st b d = true →
      logsFor (processDaily evalFn narrFn today st d) b d = logsFor st b d := by
  have hpuc := processUnprocessedCheckins_of_settled evalFn today st d h1
  have hgs : (generateDailyBattleNarratives narrFn st d).battle_user_stats
      = st.battle_user_stats := narrFold_stats narrFn d _ st
  refine ⟨?_, ?_, ?_⟩
  · show (cleanupExpiredStatusEffects
      (generateDailyBattleNarratives narrFn (processUnprocessedCheckins evalFn today st d) d)
      d).battle_user_stats = st.battle_user_stats
    rw [hpuc]
    rw [cleanup_stats_of_fresh _ d (by rw [hgs]; exact h2), hgs]
  · show (cleanupExpiredStatusEffects
      (generateDailyBattleNarratives narrFn (processUnprocessedCheckins evalFn today st d) d)
      d).checkins = st.checkins
    rw [hpuc]
    show (generateDailyBattleNarratives narrFn st d).checkins = st.checkins
    exact narrFold_checkins narrFn d _ st
  · intro b hb
    show logsFor (cleanupExpiredStatusEffects
      (generateDailyBattleNarratives narrFn (processUnprocessedCheckins evalFn today st d) d)
      d) b d = logsFor st b d
    rw [hpuc]
    show logsFor (generateDailyBattleNarratives narrFn st d) b d = logsFor st b d
    exact narrFold_logsFor narrFn d _ st b d (fun x hx hxb => by
      have := mem_battlesNeedingNarratives_no_log st d x hx
      rw [hxb, hb] at this
      exact absurd this (by decide))

/-- Witness for C1, on the concrete fully settled store. -/
theorem c1_settlement_idempotent_witness :
    ((∀ c ∈ fxSettledStore.checkins, c.date = fxDate → c.processed_at ≠ none) ∧
      (∀ us ∈ fxSettledStore.battle_user_stats, ∀ e ∈ us.status_effects,
        fxDate.rd ≤ e.expires_at)) ∧
    ((processDaily fxEval fxNarr fxDate.rd fxSettledStore fxDate).battle_user_stats
        = fxSettledStore.battle_user_stats ∧
      (processDaily fxEval fxNarr fxDate.rd fxSettledStore fxDate).checkins
        = fxSettledStore.checkins ∧
      ∀ b : Nat, hasLogFor fxSettledStore b fxDate = true →
        logsFor (processDaily fxEval fxNarr fxDate.rd fxSettledStore fxDate) b fxDate
          = logsFor fxSettledStore b fxDate) :=
  ⟨⟨by decide, by decide⟩,
    c1_settlement_idempotent fxEval fxNarr fxDate.rd fxSettledStore fxDate
      (by decide) (by decide)⟩

/-- Helper: every row of an updated stats table comes from a row of the
original table, either updated or untouched. -/
theorem mem_updateStatsRow (st : Store) (b u : Nat) (f : UserStats → UserStats)
    (s' : UserStats) (h : s' ∈ (updateStatsRow st b u f).battle_user_stats) :
    ∃ s ∈ st.battle_user_stats, s' = f s ∨ s' = s := by
  unfold updateStatsRow at h
  simp only [List.mem_map] at h
  obtain ⟨s, hs, heq⟩ := h
  by_cases hp : (s.battle_id == b && s.user_id == u) = true
  · rw [if_pos hp] at heq
    exact ⟨s, hs, Or.inl heq.symm⟩
  · rw [if_neg hp] at heq
    exact ⟨s, hs, Or.inr heq.symm⟩

/-- Helper: the core settlement pass keeps every hit-point value at or
above zero (the opponent row is written with an explicit `max 0`, the
user row's hit points are untouched). -/
theorem processPlayerSubmissionsCore_hp (evalFn : Evaluator) (today : Nat) (st : Store)
    (battleId userId : Nat) (d : Date) (battle : Battle) (us os : UserStats)
    (hinv : ∀ s ∈ st.battle_user_stats, 0 ≤ s.hp) :
    ∀ s' ∈ (processPlayerSubmissionsCore evalFn today st battleId userId d battle us
      os).battle_user_stats, 0 ≤ s'.hp := by
  intro s' hs'
  simp only [processPlayerSubmissionsCore] at hs'
  obtain ⟨s1, hs1, h1⟩ := mem_updateStatsRow _ _ _ _ _ hs'
  obtain ⟨s0, hs0, h0⟩ := mem_updateStatsRow _ _ _ _ _ hs1
  rcases h1 with h1 | h1
  · rw [h1]
    exact le_max_left 0 _
  · rcases h0 with h0 | h0
    · rw [h1, h0]
      exact hinv s0 hs0
    · rw [h1, h0]
      exact hinv s0 hs0

/-- Helper: the settlement pass keeps every hit-point value at or above
zero. -/
theorem processPlayerSubmissions_hp (evalFn : Evaluator) (today : Nat) (st : Store)
    (battleId userId : Nat) (d : Date)
    (hinv : ∀ s ∈ st.battle_user_stats, 0 ≤ s.hp) :
    ∀ s' ∈ (processPlayerSubmissions evalFn today st battleId userId d).battle_user_stats,
      0 ≤ s'.hp := by
  unfold processPlayerSubmissions
  by_cases hemp : (pendingJoined st battleId userId d).isEmpty = true
  · rw [if_pos hemp]
    exact hinv
  · rw [if_neg hemp]
    intro s' hs'
    split at hs'
    · split at hs'
      · exact processPlayerSubmissionsCore_hp _ _ _ _ _ _ _ _ _ hinv s' hs'
      · exact hinv s' hs'
    · exact hinv s' hs'

/-- Helper: the settlement pass never touches the battles table. -/
theorem processPlayerSubmissions_battles (evalFn : Evaluator) (today : Nat) (st : Store)
    (battleId userId : Nat) (d : Date) :
    (processPlayerSubmissions evalFn today st battleId userId d).battles = st.battles := by
  unfold processPlayerSubmissions
  by_cases hemp : (pendingJoined st battleId userId d).isEmpty = true
  · rw [if_pos hemp]
  · rw [if_neg hemp]
    split
    · split
      · rfl
      · rfl
    · rfl

/-- Helper: a battle-status lookup reads only the battles table. -/
theorem statusOf_congr_battles (s1 s2 : Store) (x : Nat) (h : s1.battles = s2.battles) :
    statusOf s1 x = statusOf s2 x := by
  unfold statusOf findBattle
  rw [h]

/-- Helper: mapping an id- and status-preserving function over the
battles table does not change any status lookup. -/
theorem find?_map_status_preserve (l : List Battle) (g : Battle → Battle)
    (hid : ∀ b, (g b).id = b.id) (hst : ∀ b, (g b).status = b.status) (x : Nat) :
    ((l.map g).find? (fun b => b.id == x)).map (fun b => b.status) =
      (l.find? (fun b => b.id == x)).map (fun b => b.status) := by
  induction l with
  | nil => rfl
  | cons a l ih =>
    simp only [List.map_cons]
    by_cases h : (a.id == x) = true
    · rw [List.find?_cons_of_pos, List.find?_cons_of_pos]
      · simp [hst a]
      · exact h
      · simp only [hid]
        exact h
    · have h' : (a.id == x) = false := by
        cases h2 : (a.id == x)
        · rfl
        · exact absurd h2 h
      rw [List.find?_cons_of_neg, List.find?_cons_of_neg]
      · exact ih
      · simp [h']
      · simp [hid, h']

/-- Helper: the per-battle date stamp never changes a battle's status. -/
theorem statusOf_updateBattleStats (st : Store) (battleId : Nat) (d : Date) (x : Nat) :
    statusOf (updateBattleStats st battleId d) x = statusOf st x := by
  unfold statusOf findBattle updateBattleStats
  dsimp only
  exact find?_map_status_preserve st.battles _
    (fun b => by split <;> rfl)
    (fun b => by split <;> rfl) x

/-- Helper: one battle-day pass changes no battle status. -/
theorem statusOf_processBattleDay (evalFn : Evaluator) (today : Nat) (st : Store)
    (battleId : Nat) (d : Date) (x : Nat) :
    statusOf (processBattleDay evalFn today st battleId d) x = statusOf st x := by
  unfold processBattleDay
  cases hfb : findBattle st battleId with
  | none => rfl
  | some battle =>
    show statusOf (updateBattleStats (processPlayerSubmissions evalFn today
        (processPlayerSubmissions evalFn today st battleId battle.player1_id d)
        battleId battle.player2_id d) battleId d) x = statusOf st x
    rw [statusOf_updateBattleStats]
    exact statusOf_congr_battles _ st x
      (by rw [processPlayerSubmissions_battles, processPlayerSubmissions_battles])

/-- Helper: one battle-day pass keeps every hit-point value at or above
zero. -/
theorem processBattleDay_hp (evalFn : Evaluator) (today : Nat) (st : Store) (battleId : Nat)
    (d : Date) (hinv : ∀ s ∈ st.battle_user_stats, 0 ≤ s.hp) :
    ∀ s' ∈ (processBattleDay evalFn today st battleId d).battle_user_stats, 0 ≤ s'.hp := by
  unfold processBattleDay
  cases findBattle st battleId with
  | none => exact hinv
  | some battle =>
    intro s' hs'
    exact processPlayerSubmissions_hp evalFn today _ battleId battle.player2_id d
      (processPlayerSubmissions_hp evalFn today st battleId battle.player1_id d hinv) s' hs'

/-- Helper: folding battle-day passes over a list of battle ids changes
no battle status. -/
theorem foldBattleDay_status (evalFn : Evaluator) (today : Nat) (d : Date) (x : Nat)
    (l : List Nat) :
    ∀ st : Store,
      statusOf (l.foldl (fun s bid => processBattleDay evalFn today s bid d) st) x
        = statusOf st x := by
  induction l with
  | nil => intro st; rfl
  | cons bid l ih =>
    intro st
    simp only [List.foldl_cons]
    rw [ih, statusOf_processBattleDay]

/-- Helper: folding battle-day passes keeps every hit-point value at or
above zero. -/
theorem foldBattleDay_hp (evalFn : Evaluator) (today : Nat) (d : Date) (l : List Nat) :
    ∀ st : Store, (∀ s ∈ st.battle_user_stats, 0 ≤ s.hp) →
      ∀ s' ∈ (l.foldl (fun s bid => processBattleDay evalFn today s bid d)
          st).battle_user_stats, 0 ≤ s'.hp := by
  induction l with
  | nil => intro st h; exact h
  | cons bid l ih =>
    intro st h
    simp only [List.foldl_cons]
    exact ih _ (processBattleDay_hp evalFn today st bid d h)

/-- Helper: step 1 of the daily run changes no battle status. -/
theorem statusOf_processUnprocessedCheckins (evalFn : Evaluator) (today : Nat) (st : Store)
    (d : Date) (x : Nat) :
    statusOf (processUnprocessedCheckins evalFn today st d) x = statusOf st x :=
  foldBattleDay_status evalFn today d x (battlesWithUnprocessed st d) st

/-- Helper: step 1 of the daily run keeps every hit-point value at or
above zero. -/
theorem processUnprocessedCheckins_hp (evalFn : Evaluator) (today : Nat) (st : Store)
    (d : Date) (hinv : ∀ s ∈ st.battle_user_stats, 0 ≤ s.hp) :
    ∀ s' ∈ (processUnprocessedCheckins evalFn today st d).battle_user_stats, 0 ≤ s'.hp :=
  foldBattleDay_hp evalFn today d (battlesWithUnprocessed st d) st hinv

/-- Helper: the expiry cleanup keeps every hit-point value at or above
zero. -/
theorem cleanupExpiredStatusEffects_hp (st : Store) (d : Date)
    (hinv : ∀ s ∈ st.battle_user_stats, 0 ≤ s.hp) :
    ∀ s' ∈ (cleanupExpiredStatusEffects st d).battle_user_stats, 0 ≤ s'.hp := by
  intro s' hs'
  unfold cleanupExpiredStatusEffects at hs'
  simp only [List.mem_map] at hs'
  obtain ⟨s, hs, heq⟩ := hs'
  rw [← heq]
  exact hinv s hs

/-- Helper: the expiry cleanup never changes a battle's status. -/
theorem statusOf_cleanup (st : Store) (d : Date) (x : Nat) :
    statusOf (cleanupExpiredStatusEffects st d) x = statusOf st x := rfl

/-- Helper: a status lookup for battle `bid` after battle `bid` is marked
completed returns `completed` whenever the battle exists. -/
theorem find?_map_complete_self (l : List Battle) (bid : Nat) :
    ((l.map (fun b => if b.id == bid then { b with status := "completed" } else b)).find?
        (fun b => b.id == bid)).map (fun b => b.status) =
      (l.find? (fun b => b.id == bid)).map (fun _ => "completed") := by
  induction l with
  | nil => rfl
  | cons a l ih =>
    simp only [List.map_cons]
    by_cases ha : (a.id == bid) = true
    · rw [if_pos ha, List.find?_cons_of_pos, List.find?_cons_of_pos]
      · rfl
      · exact ha
      · exact ha
    · rw [if_neg ha, List.find?_cons_of_neg, List.find?_cons_of_neg]
      · exact ih
      · exact ha
      · exact ha

/-- Helper: marking battle `bid` completed does not change the status of
any other battle. -/
theorem find?_map_complete_ne (l : List Battle) (bid x : Nat) (h : x ≠ bid) :
    ((l.map (fun b => if b.id == bid then { b with status := "completed" } else b)).find?
        (fun b => b.id == x)).map (fun b => b.status) =
      (l.find? (fun b => b.id == x)).map (fun b => b.status) := by
  induction l with
  | nil => rfl
  | cons a l ih =>
    simp only [List.map_cons]
    by_cases hax : (a.id == x) = true
    · have ha : a.id = x := by simpa using hax
      have hneg : ¬ ((a.id == bid) = true) := by
        simp only [ha, beq_iff_eq]
        exact h
      rw [if_neg hneg, List.find?_cons_of_pos, List.find?_cons_of_pos]
      · exact hax
      · exact hax
    · by_cases hab : (a.id == bid) = true
      · rw [if_pos hab, List.find?_cons_of_neg, List.find?_cons_of_neg]
        · exact ih
        · exact hax
        · exact hax
      · rw [if_neg hab, List.find?_cons_of_neg, List.find?_cons_of_neg]
        · exact ih
        · exact hax
        · exact hax

/-- Helper: one narrative step either leaves a battle's status alone, or
(only for its own battle, and only when one of that battle's combatant
rows is at or below zero hit points) overwrites it with `completed`. -/
theorem generateBattleNarrative_statusOf_cases (narrFn : Narrator) (st : Store)
    (battleId : Nat) (d : Date) (x : Nat) :
    statusOf (generateBattleNarrative narrFn st battleId d) x = statusOf st x ∨
      (x = battleId ∧
        statusOf (generateBattleNarrative narrFn st battleId d) x
          = (statusOf st x).map (fun _ => "completed") ∧
        ∃ s ∈ st.battle_user_stats, s.battle_id = battleId ∧ s.hp ≤ 0) := by
  by_cases hdef : ((st.battle_user_stats.filter (fun s => s.battle_id == battleId)).any
      (fun s => decide (s.hp ≤ 0))) = true
  · have hb : (generateBattleNarrative narrFn st battleId d).battles
        = st.battles.map (fun b =>
            if b.id == battleId then { b with status := "completed" } else b) := by
      simp only [generateBattleNarrative]
      rw [if_pos hdef]
    have hstat : ∀ y : Nat, statusOf (generateBattleNarrative narrFn st battleId d) y =
        ((st.battles.map (fun b => if b.id == battleId then { b with status := "completed" }
          else b)).find? (fun b => b.id == y)).map (fun b => b.status) := by
      intro y
      unfold statusOf findBattle
      rw [hb]
    by_cases hx : x = battleId
    · right
      refine ⟨hx, ?_, ?_⟩
      · subst hx
        rw [hstat, find?_map_complete_self]
        unfold statusOf findBattle
        cases st.battles.find? (fun b => b.id == x) <;> rfl
      · simp only [List.any_eq_true, List.mem_filter, beq_iff_eq, decide_eq_true_eq] at hdef
        obtain ⟨s, ⟨hs, hsb⟩, hhp⟩ := hdef
        exact ⟨s, hs, hsb, hhp⟩
    · left
      rw [hstat, find?_map_complete_ne st.battles battleId x hx]
      rfl
  · left
    have hb : (generateBattleNarrative narrFn st battleId d).battles = st.battles := by
      simp only [generateBattleNarrative]
      rw [if_neg hdef]
    exact statusOf_congr_battles _ st x hb

/-- Helper: the narrative fold keeps a completed battle completed. -/
theorem narrFold_statusOf_completed (narrFn : Narrator) (d : Date) (x : Nat)
    (l : List Battle) :
    ∀ st : Store, statusOf st x = some "completed" →
      statusOf (l.foldl (fun s b => generateBattleNarrative narrFn s b.id d) st) x
        = some "completed" := by
  induction l with
  | nil => intro st h; exact h
  | cons b l ih =>
    intro st h
    simp only [List.foldl_cons]
    refine ih _ ?_
    rcases generateBattleNarrative_statusOf_cases narrFn st b.id d x with h1 | ⟨_, h1, _⟩
    · rw [h1, h]
    · rw [h1, h]
      rfl

/-- Helper: when the narrative fold turns an active battle completed, one
of that battle's combatant rows entered the fold at or below zero hit
points. -/
theorem narrFold_statusOf_transition (narrFn : Narrator) (d : Date) (x : Nat)
    (l : List Battle) :
    ∀ st : Store, statusOf st x = some "active" →
      statusOf (l.foldl (fun s b => generateBattleNarrative narrFn s b.id d) st) x
        = some "completed" →
      ∃ s ∈ st.battle_user_stats, s.battle_id = x ∧ s.hp ≤ 0 := by
  induction l with
  | nil =>
    intro st ha hc
    rw [List.foldl_nil, ha] at hc
    exact absurd hc (by decide)
  | cons b l ih =>
    intro st ha hc
    simp only [List.foldl_cons] at hc
    rcases generateBattleNarrative_statusOf_cases narrFn st b.id d x with h1 | ⟨hx, h1, hex⟩
    · obtain ⟨s, hs, h2, h3⟩ := ih _ (h1.trans ha) hc
      rw [generateBattleNarrative_stats] at hs
      exact ⟨s, hs, h2, h3⟩
    · obtain ⟨s, hs, h2, h3⟩ := hex
      exact ⟨s, hs, h2.trans hx.symm, h3⟩

/-- Helper: the POST `/checkins` handler only ever appends checkin rows;
it never touches the combatant table or the battles table. -/
theorem processSubmitRequest_stats_battles (st : Store) (battleId userId : Nat)
    (dateStr : Date) (results : List ResultEntry) :
    (processSubmitRequest st battleId userId dateStr results).store.battle_user_stats
        = st.battle_user_stats ∧
      (processSubmitRequest st battleId userId dateStr results).store.battles
        = st.battles := by
  unfold processSubmitRequest
  cases st.battles.find? (fun b => b.id == battleId && b.status == "active") with
  | none => exact ⟨rfl, rfl⟩
  | some battle =>
    dsimp only
    split
    · exact ⟨rfl, rfl⟩
    · split
      · exact ⟨rfl, rfl⟩
      · exact ⟨rfl, rfl⟩

/-- C6: over one daily settlement run (settle pending checkins, generate
narratives and conclude battles, clean up expired effects), starting from
a store whose combatant rows all have non-negative hit points: (1) every
hit-point value stays at or above zero; (2) a battle already `completed`
stays `completed`, so the active-to-completed transition happens at most
once; (3) when a battle does flip from `active` to `completed`, one of its
combatant rows holds exactly zero hit points afterwards; and (4) a POST
`/checkins` submission never touches the combatant or battles tables, so
no other code path moves hit points or battle status. -/
theorem c6_hp_floor_and_single_transition (evalFn : Evaluator) (narrFn : Narrator)
    (today : Nat) (st : Store) (d : Date)
    (hinv : ∀ us ∈ st.battle_user_stats, 0 ≤ us.hp) :
    (∀ us ∈ (processDaily evalFn narrFn today st d).battle_user_stats, 0 ≤ us.hp) ∧
      (∀ b : Nat, statusOf st b = some "completed" →
        statusOf (processDaily evalFn narrFn today st d) b = some "completed") ∧
      (∀ b : Nat, statusOf st b = some "active" →
        statusOf (processDaily evalFn narrFn today st d) b = some "completed" →
        ∃ us ∈ (processDaily evalFn narrFn today st d).battle_user_stats,
          us.battle_id = b ∧ us.hp = 0) ∧
      (∀ (battleId userId : Nat) (dateStr : Date) (results : List ResultEntry),
        (processSubmitRequest st battleId userId dateStr results).store.battle_user_stats
            = st.battle_user_stats ∧
          (processSubmitRequest st battleId userId dateStr results).store.battles
            = st.battles) := by
  have hp1 : ∀ us ∈ (processUnprocessedCheckins evalFn today st d).battle_user_stats,
      0 ≤ us.hp := processUnprocessedCheckins_hp evalFn today st d hinv
  have hgs : (generateDailyBattleNarratives narrFn
      (processUnprocessedCheckins evalFn today st d) d).battle_user_stats
      = (processUnprocessedCheckins evalFn today st d).battle_user_stats :=
    narrFold_stats narrFn d _ _
  refine ⟨?_, ?_, ?_, ?_⟩
  · intro us hus
    refine cleanupExpiredStatusEffects_hp _ d ?_ us hus
    rw [hgs]
    exact hp1
  · intro b hb
    show statusOf (cleanupExpiredStatusEffects (generateDailyBattleNarratives narrFn
        (processUnprocessedCheckins evalFn today st d) d) d) b = some "completed"
    rw [statusOf_cleanup]
    exact narrFold_statusOf_completed narrFn d b _ _
      ((statusOf_processUnprocessedCheckins evalFn today st d b).trans hb)
  · intro b ha hc
    have ha' : statusOf (processUnprocessedCheckins evalFn today st d) b = some "active" :=
      (statusOf_processUnprocessedCheckins evalFn today st d b).trans ha
    have hc' : statusOf (generateDailyBattleNarratives narrFn
        (processUnprocessedCheckins evalFn today st d) d) b = some "completed" :=
      (statusOf_cleanup _ d b).symm.trans hc
    obtain ⟨s, hs, hsb, hshp⟩ := narrFold_statusOf_transition narrFn d b _ _ ha' hc'
    have hsg : s ∈ (generateDailyBattleNarratives narrFn
        (processUnprocessedCheckins evalFn today st d) d).battle_user_stats := by
      rw [hgs]
      exact hs
    refine ⟨{ s with status_effects :=
        s.status_effects.filter (fun e => d.rd ≤ e.expires_at) }, ?_, hsb, ?_⟩
    · exact List.mem_map_of_mem _ hsg
    · exact le_antisymm hshp (hp1 s hs)
  · intro battleId userId dateStr results
    exact processSubmitRequest_stats_battles st battleId userId dateStr results

/-- C6 (witness): the invariant hypothesis and the hit-point floor hold
at the concrete pending store and date. -/
theorem c6_hp_floor_and_single_transition_witness :
    (∀ us ∈ fxPendingStore.battle_user_stats, 0 ≤ us.hp) ∧
      (∀ us ∈ (processDaily fxEval fxNarr fxDate.rd fxPendingStore
          fxDate).battle_user_stats, 0 ≤ us.hp) :=
  ⟨by decide, (c6_hp_floor_and_single_transition fxEval fxNarr fxDate.rd fxPendingStore
    fxDate (by decide)).1⟩

/-- Helper: the availability gate declines every sidequest-class
frequency string. -/
theorem isQuestAvailable_sidequest (frequency : Option String) (date : Date)
    (h : isSidequestFreq frequency = true) :
    (isQuestAvailable frequency date).available = false := by
  cases frequency with
  | none => exact absurd h (by decide)
  | some f =>
    have h' : (jsToLower f == "sidequest") = true := h
    have hf : jsToLower f = "sidequest" := eq_of_beq h'
    unfold isQuestAvailable
    dsimp only
    rw [hf]
    rfl

/-- Helper: the scan phase only accepts quests that exist and that the
availability gate accepts. -/
theorem scanFold_sound (st : Store) (battleId userId : Nat) (dateStr : Date)
    (acc : List ScanEntry × List Nat) (r : ResultEntry)
    (hacc : ∀ q ∈ acc.1, findQuest st.quests q.quest_id = some q.quest ∧
      (isQuestAvailable q.quest.frequency dateStr).available = true) :
    ∀ q ∈ (match findQuest st.quests r.quest_id with
      | none => (acc.1, acc.2 ++ [r.quest_id])
      | some quest =>
        if !(isQuestAvailable quest.frequency dateStr).available then
          (acc.1, acc.2 ++ [r.quest_id])
        else if isQuestLockedForPeriod st battleId userId r.quest_id quest.frequency
            dateStr then
          (acc.1, acc.2 ++ [r.quest_id])
        else
          (acc.1 ++ [{ quest_id := r.quest_id, quest := quest,
                       completed := r.completed, value := r.value }],
            acc.2) : List ScanEntry × List Nat).1,
      findQuest st.quests q.quest_id = some q.quest ∧
        (isQuestAvailable q.quest.frequency dateStr).available = true := by
  cases hfq : findQuest st.quests r.quest_id with
  | none => exact hacc
  | some quest =>
    show ∀ q ∈ ((if !(isQuestAvailable quest.frequency dateStr).available then
        (acc.1, acc.2 ++ [r.quest_id])
      else if isQuestLockedForPeriod st battleId userId r.quest_id quest.frequency
          dateStr then
        (acc.1, acc.2 ++ [r.quest_id])
      else
        (acc.1 ++ [{ quest_id := r.quest_id, quest := quest,
                     completed := r.completed, value := r.value }],
          acc.2) : List ScanEntry × List Nat)).1,
      findQuest st.quests q.quest_id = some q.quest ∧
        (isQuestAvailable q.quest.frequency dateStr).available = true
    by_cases hav : (!(isQuestAvailable quest.frequency dateStr).available) = true
    · rw [if_pos hav]
      exact hacc
    · rw [if_neg hav]
      by_cases hlock : isQuestLockedForPeriod st battleId userId r.quest_id quest.frequency
          dateStr = true
      · rw [if_pos hlock]
        exact hacc
      · rw [if_neg hlock]
        intro q hq
        rcases List.mem_append.mp hq with hq | hq
        · exact hacc q hq
        · obtain rfl := List.mem_singleton.mp hq
          refine ⟨hfq, ?_⟩
          simpa using hav

/-- Helper: soundness of the whole scan: every accepted entry carries its
stored quest row, and the availability gate accepted that quest. -/
theorem scanResults_sound (st : Store) (battleId userId : Nat) (dateStr : Date)
    (results : List ResultEntry) :
    ∀ q ∈ (scanResults st battleId userId dateStr results).1,
      findQuest st.quests q.quest_id = some q.quest ∧
        (isQuestAvailable q.quest.frequency dateStr).available = true := by
  unfold scanResults
  have hgen : ∀ acc : List ScanEntry × List Nat,
      (∀ q ∈ acc.1, findQuest st.quests q.quest_id = some q.quest ∧
        (isQuestAvailable q.quest.frequency dateStr).available = true) →
      ∀ q ∈ (results.foldl (fun acc r =>
        match findQuest st.quests r.quest_id with
        | none => (acc.1, acc.2 ++ [r.quest_id])
        | some quest =>
          if !(isQuestAvailable quest.frequency dateStr).available then
            (acc.1, acc.2 ++ [r.quest_id])
          else if isQuestLockedForPeriod st battleId userId r.quest_id quest.frequency
              dateStr then
            (acc.1, acc.2 ++ [r.quest_id])
          else
            (acc.1 ++ [{ quest_id := r.quest_id, quest := quest,
                         completed := r.completed, value := r.value }], acc.2)) acc).1,
        findQuest st.quests q.quest_id = some q.quest ∧
          (isQuestAvailable q.quest.frequency dateStr).available = true := by
    induction results with
    | nil => intro acc hacc; exact hacc
    | cons r rs ih =>
      intro acc hacc
      simp only [List.foldl_cons]
      exact ih _ (scanFold_sound st battleId userId dateStr acc r hacc)
  refine hgen ([], []) ?_
  intro q hq
  exact absurd hq (List.not_mem_nil q)

/-- Helper: none of the rows the handler inserts has a sidequest-class
quest, because the availability gate would have rejected it. -/
theorem filter_sidequest_inserts_nil (st : Store) (battleId userId : Nat) (dateStr : Date)
    (results : List ResultEntry) (seq : Nat) :
    ((scanResults st battleId userId dateStr results).1.map (fun q =>
      ({ id := 0, battle_id := battleId, user_id := userId, date := dateStr,
         quest_id := q.quest_id, value := q.value, completed := q.completed,
         submission_sequence := seq, processed_at := none } : Checkin))).filter (fun c =>
      match findQuest st.quests c.quest_id with
      | some q => isSidequestFreq q.frequency
      | none => false) = [] := by
  rw [List.filter_eq_nil_iff]
  intro c hc
  rw [List.mem_map] at hc
  obtain ⟨q, hq, hqc⟩ := hc
  obtain ⟨hfq, hav⟩ := scanResults_sound st battleId userId dateStr results q hq
  subst hqc
  show ¬ ((match findQuest st.quests q.quest_id with
    | some q' => isSidequestFreq q'.frequency
    | none => false) = true)
  rw [hfq]
  intro hside
  have hfalse := (isQuestAvailable_sidequest q.quest.frequency dateStr hside).symm.trans hav
  exact absurd hfalse (by decide)

/-- Helper: appending rows to the checkin ledger adds exactly the
sidequest count of the appended rows. -/
theorem countSidequestCheckins_append (st : Store) (l : List Checkin) :
    countSidequestCheckins { st with checkins := st.checkins ++ l } =
      countSidequestCheckins st +
        (l.filter (fun c =>
          match findQuest st.quests c.quest_id with
          | some q => isSidequestFreq q.frequency
          | none => false)).length := by
  unfold countSidequestCheckins
  show ((st.checkins ++ l).filter _).length = _
  rw [List.filter_append, List.length_append]

/-- C10: the availability gate unconditionally declines every quest whose
recurrence class is sidequest, and consequently the POST `/checkins`
handler never changes the number of stored sidequest checkins on any
input: no sidequest submission row can be inserted through this
endpoint. -/
theorem c10_no_sidequest_submission :
    (∀ (frequency : Option String) (date : Date), isSidequestFreq frequency = true →
      (isQuestAvailable frequency date).available = false) ∧
      (∀ (st : Store) (battleId userId : Nat) (dateStr : Date)
          (results : List ResultEntry),
        countSidequestCheckins (processSubmitRequest st battleId userId dateStr
            results).store = countSidequestCheckins st) := by
  constructor
  · intro frequency date h
    exact isQuestAvailable_sidequest frequency date h
  · intro st battleId userId dateStr results
    unfold processSubmitRequest
    cases st.battles.find? (fun b => b.id == battleId && b.status == "active") with
    | none => rfl
    | some battle =>
      dsimp only
      split
      · rfl
      · split
        · rfl
        · rw [countSidequestCheckins_append, filter_sidequest_inserts_nil]
          rfl

/-- C10 (witness): at the concrete store, a sidequest frequency string is
declined by the gate, and a concrete submission request leaves the
sidequest checkin count unchanged. -/
theorem c10_no_sidequest_submission_witness :
    isSidequestFreq (some "sidequest") = true ∧
      (isQuestAvailable (some "sidequest") fxDate).available = false ∧
      countSidequestCheckins (processSubmitRequest fxFreshStore 1 1 fxDate
        [{ quest_id := 99, completed := true }]).store = countSidequestCheckins fxFreshStore :=
  ⟨by decide, c10_no_sidequest_submission.1 (some "sidequest") fxDate (by decide),
    c10_no_sidequest_submission.2 fxFreshStore 1 1 fxDate [{ quest_id := 99, completed := true }]⟩

/-- C9 (counterexample): invoking the weekly tournament resolver for a
(battle, week) pair that already has a stored result row inserts a second
row for the same pair — neither the resolver, its callers, nor the table
schema enforce at-most-once creation. -/
theorem c9_tournament_duplicate_counterexample :
    (tournamentRowsFor [fxTournamentRow] 1 ⟨2024, 12, 30⟩).length = 1 ∧
    (tournamentRowsFor
      (processWeeklyTournament ⟨2024, 12, 30⟩ ⟨2025, 1, 5⟩ [fxWeekStatsA, fxWeekStatsB]
        [fxTournamentRow] 1) 1 ⟨2024, 12, 30⟩).length = 2 := by
  decide

/-- C9 (amended): every invocation of the weekly tournament resolver with
both participants' aggregates present appends exactly one new result row
for the given battle and week, regardless of any rows already stored; the
at-most-once property of the original claim is not enforced anywhere in
the backend (only the frontend hides its trigger button once a row
exists). -/
theorem c9_tournament_always_inserts (weekStart weekEnd : Date) (battleId : Nat)
    (p1 p2 : TournamentStats) (rest : List TournamentStats)
    (rows : List WeeklyTournamentRow) :
    (processWeeklyTournament weekStart weekEnd (p1 :: p2 :: rest) rows battleId).length
        = rows.length + 1 ∧
    (tournamentRowsFor
        (processWeeklyTournament weekStart weekEnd (p1 :: p2 :: rest) rows battleId)
        battleId weekStart).length
      = (tournamentRowsFor rows battleId weekStart).length + 1 := by
  constructor
  · simp [processWeeklyTournament]
  · simp [processWeeklyTournament, tournamentRowsFor, List.filter_append]

end WinterArc
